import Mathlib

/-!
Verification of the record segmentation and field extraction engine of the
formfilling repository (server module: `formatDate`, `generateInitials`,
`parseFormRecord`, `parseFormData`, `formatDateToMonthDayYear`).

The development embeds the JavaScript source shallowly:

* JS strings are handled as `List Char`; the source's regular expressions are
  transcribed into a small regex AST (`RE`) with a backtracking matcher that
  mirrors JS semantics (leftmost match, greedy quantifiers with backtracking,
  ordered alternation, word boundaries, capture groups).
* JS objects holding the 24 form fields are association lists
  `List (String × String)`; assignment to an existing key is an in-place
  update (`setF`), reading a key is `getF` (absent keys read as `""`, the
  falsy JS `undefined` is only ever tested with `!`/`||` in the source).
* Machine numbers: every number the engine computes is a small `Nat`
  (`parseInt` of short digit captures) except the dead total-amount branch,
  which is modelled over `ℚ`.
-/

namespace FormFill

/-! ### JS character classes (ASCII semantics of the source's regexes) -/

def isDigitC (c : Char) : Bool := 48 ≤ c.toNat && c.toNat ≤ 57

def isLowerC (c : Char) : Bool := 97 ≤ c.toNat && c.toNat ≤ 122

def isUpperC (c : Char) : Bool := 65 ≤ c.toNat && c.toNat ≤ 90

def isLetterC (c : Char) : Bool := isLowerC c || isUpperC c

/-- JS `\s` (and the whitespace removed by `String.prototype.trim`):
space, tab, LF, VT, FF, CR, NBSP, BOM. -/
def isWsC (c : Char) : Bool :=
  c.toNat = 32 || (9 ≤ c.toNat && c.toNat ≤ 13) || c.toNat = 160 || c.toNat = 65279

/-- JS `\w`: `[A-Za-z0-9_]`, used by the `\b` word-boundary assertion. -/
def isWordC (c : Char) : Bool := isLetterC c || isDigitC c || c == '_'

/-! ### JS string primitives over `List Char` -/

/-- `text.split('\n')`: split on the separator, keeping empty segments. -/
def splitNl (l : List Char) : List (List Char) :=
  l.foldr
    (fun c acc =>
      match acc with
      | [] => [[c]]
      | a :: rest => if c = '\n' then [] :: a :: rest else (c :: a) :: rest)
    [[]]

/-- `s.trim()`. -/
def jsTrim (l : List Char) : List Char :=
  ((l.dropWhile isWsC).reverse.dropWhile isWsC).reverse

theorem dropWhileLenLe (p : α → Bool) (l : List α) :
    (l.dropWhile p).length ≤ l.length := by
  induction l with
  | nil => simp [List.dropWhile]
  | cons c cs ih =>
    simp only [List.dropWhile]
    split
    · exact Nat.le_succ_of_le ih
    · simp

/-- `s.replace(/\s+/g, ' ')`: state machine, `inRun` records whether the
previous character was whitespace (already emitted as one space). -/
def collapseWsAux : Bool → List Char → List Char
  | _, [] => []
  | inRun, c :: cs =>
    if isWsC c then
      if inRun then collapseWsAux true cs else ' ' :: collapseWsAux true cs
    else c :: collapseWsAux false cs

def collapseWs (l : List Char) : List Char := collapseWsAux false l

/-- `s.split(/\s+/)` with empty parts dropped (the source filters them);
`cur` accumulates the current token in reverse. -/
def wsTokensAux : List Char → List Char → List (List Char)
  | cur, [] => if cur = [] then [] else [cur.reverse]
  | cur, c :: cs =>
    if isWsC c then
      if cur = [] then wsTokensAux [] cs else cur.reverse :: wsTokensAux [] cs
    else wsTokensAux (c :: cur) cs

def wsTokens (l : List Char) : List (List Char) := wsTokensAux [] l

/-- Decimal printer for `Nat` (JS `Number.prototype.toString` on naturals),
with explicit fuel so that it is structurally recursive. -/
def toDecAux : Nat → Nat → List Char
  | _, 0 => []
  | n, fuel + 1 =>
    if n < 10 then [Char.ofNat (48 + n)]
    else toDecAux (n / 10) fuel ++ [Char.ofNat (48 + n % 10)]

def toDec (n : Nat) : List Char := toDecAux n (n + 1)

/-- `s.padStart(2, '0')`. -/
def padStart2 (s : List Char) : List Char :=
  List.replicate (2 - s.length) '0' ++ s

/-- `parseInt(s, 10)` on the all-digit capture strings the source feeds it. -/
def parseDigits (l : List Char) : Nat :=
  l.foldl (fun a c => 10 * a + (c.toNat - 48)) 0

/-- `haystack.indexOf(needle)` (JS: `-1` when absent). -/
def jsIndexOf (hay sub : List Char) : Int :=
  match hay with
  | [] => if sub = [] then 0 else -1
  | _ :: t =>
    if sub.isPrefixOf hay then 0
    else
      match jsIndexOf t sub with
      | -1 => -1
      | i => i + 1

/-- `s.substring(i)` (JS clamps the index into range). -/
def jsSubstringFrom (s : List Char) (i : Int) : List Char :=
  s.drop i.toNat

/-- `haystack.includes(needle)` for a single-character needle. -/
def jsIncludesChar (hay : List Char) (c : Char) : Bool := hay.contains c

/-! ### Regex engine

A small AST covering exactly the constructs the source's regex literals use:
character classes, sequencing, ordered alternation, greedy bounded repetition
of a character class, greedy option, capture groups, word boundaries and the
end anchor.  The matcher is a CPS backtracking matcher with JS semantics:
leftmost match wins, alternatives are tried left to right, quantifiers try the
longest repetition first.  The `^` anchor is expressed by matching only at
position 0 (`reMatchA`). -/

inductive RE where
  | eps : RE
  | cls (p : Char → Bool) : RE
  | cat (a b : RE) : RE
  | alt (a b : RE) : RE
  | rep (p : Char → Bool) (lo : Nat) (hi : Option Nat) : RE
  | opt (a : RE) : RE
  | grp (i : Nat) (a : RE) : RE
  | wb : RE
  | eos : RE

abbrev Caps := List (Nat × List Char)

/-- Length of the longest prefix of `s` of characters satisfying `p`,
capped at `hi`. -/
def takeRun (p : Char → Bool) : Option Nat → List Char → Nat
  | some 0, _ => 0
  | _, [] => 0
  | hi, c :: cs =>
    if p c then 1 + takeRun p (hi.map (· - 1)) cs else 0

/-- Greedy backtracking over a repetition count: try `j`, then `j - 1`, …,
down to `lo`. -/
def tryCount (f : Nat → Option σ) (lo : Nat) : Nat → Option σ
  | 0 => f 0
  | j + 1 =>
    match f (j + 1) with
    | some r => some r
    | none => if j + 1 ≤ lo then none else tryCount f lo j

/-- The character preceding the position reached after consuming `j`
characters of `s` (`pv` is the character before `s`). -/
def lastOf (s : List Char) (j : Nat) (pv : Option Char) : Option Char :=
  match (s.take j).getLast? with
  | some c => some c
  | none => pv

/-- The JS `\b` test between the previous character and the current rest. -/
def wbOK (pv : Option Char) (s : List Char) : Bool :=
  match pv, s with
  | none, [] => false
  | none, c :: _ => isWordC c
  | some c, [] => isWordC c
  | some c, d :: _ => isWordC c != isWordC d

def matchCore : RE → List Char → Option Char → Caps →
    (List Char → Option Char → Caps → Option σ) → Option σ
  | .eps, s, pv, cp, k => k s pv cp
  | .cls p, s, pv, cp, k =>
    match s with
    | [] => none
    | c :: cs => if p c then k cs (some c) cp else none
  | .cat a b, s, pv, cp, k =>
    matchCore a s pv cp (fun s1 p1 c1 => matchCore b s1 p1 c1 k)
  | .alt a b, s, pv, cp, k =>
    (matchCore a s pv cp k).orElse (fun _ => matchCore b s pv cp k)
  | .rep p lo hi, s, pv, cp, k =>
    let m := takeRun p hi s
    if m < lo then none
    else tryCount (fun j => k (s.drop j) (lastOf s j pv) cp) lo m
  | .opt a, s, pv, cp, k =>
    (matchCore a s pv cp k).orElse (fun _ => k s pv cp)
  | .grp i a, s, pv, cp, k =>
    matchCore a s pv cp
      (fun s1 p1 c1 => k s1 p1 ((i, s.take (s.length - s1.length)) :: c1))
  | .wb, s, pv, cp, k => if wbOK pv s then k s pv cp else none
  | .eos, s, pv, cp, k =>
    match s with
    | [] => k s pv cp
    | _ => none

/-- Anchored match at the current position: the full match text and captures. -/
def reMatchAt (r : RE) (s : List Char) (pv : Option Char) :
    Option (List Char × Caps) :=
  matchCore r s pv [] (fun s1 _ c1 => some (s.take (s.length - s1.length), c1))

/-- Leftmost unanchored search (JS `String.prototype.match` without `/g`). -/
def reFindAux (r : RE) : List Char → Option Char → Option (List Char × Caps)
  | s, pv =>
    match reMatchAt r s pv with
    | some res => some res
    | none =>
      match s with
      | [] => none
      | c :: cs => reFindAux r cs (some c)

def reFind (r : RE) (s : List Char) : Option (List Char × Caps) :=
  reFindAux r s none

def reTest (r : RE) (s : List Char) : Bool := (reFind r s).isSome

/-- Match anchored at position 0 (source regexes beginning with `^`). -/
def reMatchA (r : RE) (s : List Char) : Option (List Char × Caps) :=
  reMatchAt r s none

def reTestA (r : RE) (s : List Char) : Bool := (reMatchA r s).isSome

/-- Capture group `i` of a match result (the source only reads groups that
participate whenever the whole regex matched). -/
def grpGet (i : Nat) (cp : Caps) : List Char :=
  match cp.find? (fun x => x.1 == i) with
  | some x => x.2
  | none => []

/-- Leftmost search also returning the rest after the match and the new
previous-character, for the `/g` scan. -/
def reFindSplit (r : RE) :
    List Char → Option Char → Option (List Char × List Char × Option Char)
  | s, pv =>
    match matchCore r s pv []
        (fun s1 p1 _ => some (s.take (s.length - s1.length), s1, p1)) with
    | some x => some x
    | none =>
      match s with
      | [] => none
      | c :: cs => reFindSplit r cs (some c)

/-- `s.match(re)` with the `/g` flag: the list of all full-match texts.
(The one global pattern in the source can never match the empty string; on an
empty match we advance one character, as JS does.) -/
def reFindAll (r : RE) : Nat → List Char → Option Char → List (List Char)
  | 0, _, _ => []
  | fuel + 1, s, pv =>
    match reFindSplit r s pv with
    | none => []
    | some (m, rest, pv1) =>
      if m.isEmpty then
        match rest with
        | [] => [m]
        | c :: cs => m :: reFindAll r fuel cs (some c)
      else m :: reFindAll r fuel rest pv1

def reMatchAll (r : RE) (s : List Char) : List (List Char) :=
  reFindAll r (s.length + 1) s none

/-! ### Regex notation helpers -/

/-- A single literal character. -/
def chC (c : Char) : RE := .cls (fun x => x == c)

/-- A single literal character, case-insensitively (`/i`). -/
def chI (c : Char) : RE := .cls (fun x => x.toLower == c.toLower)

def seqR (rs : List RE) : RE := rs.foldr .cat .eps

def strR (s : String) : RE := seqR (s.data.map chC)

def strI (s : String) : RE := seqR (s.data.map chI)

/-- Ordered alternation `(a|b|…)`. -/
def altList : List RE → RE
  | [] => .eps
  | [r] => r
  | r :: rest => .alt r (altList rest)

def altStrI (ws : List String) : RE := altList (ws.map strI)

def altStrR (ws : List String) : RE := altList (ws.map strR)

/-- `[...]` character class by membership of the listed characters. -/
def oneOf (cs : List Char) : RE := .cls (fun x => cs.contains x)

def digitR : RE := .cls isDigitC

def wsR : RE := .cls isWsC

/-! ### `formatDate` (server module)

`function formatDate(input)`: trim, collapse whitespace, then try in order
the textual `Month Day Year` form, the numeric `M/D/Y` form and the numeric
`D.M.Y` / `D-M-Y` form; otherwise return the (collapsed) input. -/

/-- The source's month table: full names and their abbreviations. -/
def monthNames : List (List String) :=
  [["january", "jan"], ["february", "feb"], ["march", "mar"],
   ["april", "apr"], ["may"], ["june", "jun"], ["july", "jul"],
   ["august", "aug"], ["september", "sep", "sept"], ["october", "oct"],
   ["november", "nov"], ["december", "dec"]]

/-- First index `i` with `monthNames[i].some (name => monthText.startsWith name)`
(the source's linear scan with `break`). -/
def monthIdx (mt : List Char) : Option Nat :=
  (monthNames.findIdx?
    (fun entry => entry.any (fun name => name.data.isPrefixOf mt)))

/-- Two-digit year handling: `year < 50 ? 2000 + year : 1900 + year`. -/
def adjustY (y : Nat) : Nat :=
  if y < 100 then (if y < 50 then 2000 + y else 1900 + y) else y

/-- `` `${m.toString().padStart(2,'0')}/${d.toString().padStart(2,'0')}/${y}` `` -/
def fmtMDY (m d y : Nat) : List Char :=
  padStart2 (toDec m) ++ '/' :: (padStart2 (toDec d) ++ '/' :: toDec y)

/-- `/(?:([a-z]+)\.?\s+(\d{1,2})(?:[a-z]{0,2})?(?:,?\s+|\s+,\s+)(\d{2,4}))/i` -/
def textDateRE : RE :=
  seqR [.grp 1 (.rep isLetterC 1 none), .opt (chC '.'), .rep isWsC 1 none,
    .grp 2 (.rep isDigitC 1 (some 2)), .rep isLetterC 0 (some 2),
    .alt (seqR [.opt (chC ','), .rep isWsC 1 none])
      (seqR [.rep isWsC 1 none, chC ',', .rep isWsC 1 none]),
    .grp 3 (.rep isDigitC 2 (some 4))]

/-- `/(\d{1,2})\s*\/\s*(\d{1,2})\s*\/\s*(\d{2,4})/` -/
def usDateRE : RE :=
  seqR [.grp 1 (.rep isDigitC 1 (some 2)), .rep isWsC 0 none, chC '/',
    .rep isWsC 0 none, .grp 2 (.rep isDigitC 1 (some 2)), .rep isWsC 0 none,
    chC '/', .rep isWsC 0 none, .grp 3 (.rep isDigitC 2 (some 4))]

/-- `/(\d{1,2})[.-](\d{1,2})[.-](\d{2,4})/` -/
def euDateRE : RE :=
  seqR [.grp 1 (.rep isDigitC 1 (some 2)), oneOf ['.', '-'],
    .grp 2 (.rep isDigitC 1 (some 2)), oneOf ['.', '-'],
    .grp 3 (.rep isDigitC 2 (some 4))]

/-- The textual branch: `none` both when the regex fails and when the month
table lookup fails (in either case the source falls through). -/
def textResult (s : List Char) : Option (List Char) :=
  match reFind textDateRE s with
  | none => none
  | some (_, cp) =>
    let mt := (grpGet 1 cp).map Char.toLower
    let d := parseDigits (grpGet 2 cp)
    let y := adjustY (parseDigits (grpGet 3 cp))
    match monthIdx mt with
    | none => none
    | some i => some (fmtMDY (i + 1) d y)

/-- The `M/D/Y` branch. -/
def usResult (s : List Char) : Option (List Char) :=
  match reFind usDateRE s with
  | none => none
  | some (_, cp) =>
    some (fmtMDY (parseDigits (grpGet 1 cp)) (parseDigits (grpGet 2 cp))
      (adjustY (parseDigits (grpGet 3 cp))))

/-- The parsed groups of the European-form match: (day, month, year). -/
def euGroups (s : List Char) : Option (Nat × Nat × Nat) :=
  match reFind euDateRE s with
  | none => none
  | some (_, cp) =>
    some (parseDigits (grpGet 1 cp), parseDigits (grpGet 2 cp),
      parseDigits (grpGet 3 cp))

/-- The European branch with the source's day/month disambiguation:
`day > 12 && month <= 12` swaps, otherwise day is printed in the month slot. -/
def euResult (s : List Char) : Option (List Char) :=
  match euGroups s with
  | none => none
  | some (d, m, y) =>
    if 12 < d ∧ m ≤ 12 then some (fmtMDY m d (adjustY y))
    else some (fmtMDY d m (adjustY y))

def formatDate (input : String) : String :=
  if jsTrim input.data = [] then ""
  else
    let s := collapseWs (jsTrim input.data)
    match textResult s with
    | some r => ⟨r⟩
    | none =>
      match usResult s with
      | some r => ⟨r⟩
      | none =>
        match euResult s with
        | some r => ⟨r⟩
        | none => ⟨s⟩

/-! ### `generateInitials` -/

def suffixTokens : List String := ["jr", "sr", "ii", "iii", "iv", "v", "vi"]

/-- `part.replace(/[^a-zA-Z0-9.]/g, '')`. -/
def normPart (p : List Char) : List Char :=
  p.filter (fun c => isLetterC c || isDigitC c || c == '.')

/-- The per-token transformation of `generateInitials`'s `.map` callback. -/
def tokenInitial (p : List Char) : List Char :=
  let n := normPart p
  match n with
  | [] => []
  | c :: rest =>
    if rest = [] then [c, '.']
    else if suffixTokens.any (fun s => s.data == n.map Char.toLower) then
      n ++ ['.']
    else if n.contains '.' then
      (if n.getLast? = some '.' then n else n ++ ['.'])
    else [c, '.']

def generateInitials (name : String) : String :=
  if jsTrim name.data = [] then ""
  else
    let parts := wsTokens (jsTrim name.data)
    match parts with
    | [] => ""
    | [p] =>
      if p.length = 1 then ⟨p ++ ['.']⟩
      else ⟨((parts.map tokenInitial).filter (fun i => i ≠ [])).flatten⟩
    | _ => ⟨((parts.map tokenInitial).filter (fun i => i ≠ [])).flatten⟩

/-! ### `formatDateToMonthDayYear`

Used by the extractor to render `SALES DATE`.  Its `MM/DD/YYYY` branch builds
`new Date(year, month - 1, day)`; we model the ECMAScript `Date` number
constructor exactly (two-digit years map to 1900+, out-of-range month/day
roll over through the proleptic Gregorian calendar).  Its last resort,
`new Date(dateString)` on a string that is neither of the two recognized
shapes, has implementation-defined host parsing in ECMAScript; we model that
call as an invalid date, which makes the function return its input unchanged
on that path.  (No value reaching this function in the extractor can take
that path: `SALES DATE` is only set from a match of `dateLineRE`, which
contains no `/`, so the `usMatch` test below fails only when the first,
identity branch already returned.) -/

/-- Days since 1970-01-01 of a civil date (proleptic Gregorian). -/
def daysFromCivil (y m d : Int) : Int :=
  let y1 := y - (if m ≤ 2 then 1 else 0)
  let era := Int.fdiv y1 400
  let yoe := y1 - era * 400
  let doy := Int.fdiv (153 * (m + (if 2 < m then -3 else 9)) + 2) 5 + d - 1
  let doe := yoe * 365 + Int.fdiv yoe 4 - Int.fdiv yoe 100 + doy
  era * 146097 + doe - 719468

/-- Civil date (year, month, day) of a day count since 1970-01-01. -/
def civilFromDays (z : Int) : Int × Int × Int :=
  let z1 := z + 719468
  let era := Int.fdiv z1 146097
  let doe := z1 - era * 146097
  let yoe := Int.fdiv
    (doe - Int.fdiv doe 1460 + Int.fdiv doe 36524 - Int.fdiv doe 146096) 365
  let y := yoe + era * 400
  let doy := doe - (365 * yoe + Int.fdiv yoe 4 - Int.fdiv yoe 100)
  let mp := Int.fdiv (5 * doy + 2) 153
  let d := doy - Int.fdiv (153 * mp + 2) 5 + 1
  let m := mp + (if mp < 10 then 3 else -9)
  (y + (if m ≤ 2 then 1 else 0), m, d)

/-- `new Date(y, mIdx, d)` for number arguments, normalized civil date. -/
def jsDateOfNums (y : Nat) (mIdx : Int) (d : Nat) : Int × Int × Int :=
  let fullY : Int := if y ≤ 99 then 1900 + (y : Int) else (y : Int)
  let total := fullY * 12 + mIdx
  let ny := Int.fdiv total 12
  let nm := total - ny * 12
  civilFromDays (daysFromCivil ny (nm + 1) 1 + ((d : Int) - 1))

def fullMonthNames : List String :=
  ["January", "February", "March", "April", "May", "June", "July", "August",
   "September", "October", "November", "December"]

def toDecInt (i : Int) : List Char :=
  if i < 0 then '-' :: toDec i.natAbs else toDec i.natAbs

/-- `/^[A-Za-z]+\s+\d{1,2},\s*\d{4}$/` (already in `Month Day, Year` form). -/
def alreadyMDYRE : RE :=
  seqR [.rep isLetterC 1 none, .rep isWsC 1 none, .rep isDigitC 1 (some 2),
    chC ',', .rep isWsC 0 none, .rep isDigitC 4 (some 4), .eos]

/-- `/(\d{1,2})\s*\/\s*(\d{1,2})\s*\/\s*(\d{4})/` -/
def usDate4RE : RE :=
  seqR [.grp 1 (.rep isDigitC 1 (some 2)), .rep isWsC 0 none, chC '/',
    .rep isWsC 0 none, .grp 2 (.rep isDigitC 1 (some 2)), .rep isWsC 0 none,
    chC '/', .rep isWsC 0 none, .grp 3 (.rep isDigitC 4 (some 4))]

def formatDateToMonthDayYear (dateString : String) : String :=
  if dateString = "" then ""
  else if reTestA alreadyMDYRE dateString.data then dateString
  else
    match reFind usDate4RE dateString.data with
    | some (_, cp) =>
      let m := parseDigits (grpGet 1 cp)
      let d := parseDigits (grpGet 2 cp)
      let y := parseDigits (grpGet 3 cp)
      let c := jsDateOfNums y ((m : Int) - 1) d
      ⟨(fullMonthNames.getD (c.2.1 - 1).toNat "").data ++ ' ' ::
        (toDecInt c.2.2 ++ ',' :: ' ' :: toDecInt c.1)⟩
    | none => dateString

/-! ### The 24-field record object -/

abbrev Fields := List (String × String)

/-- The literal field object of `parseFormRecord` (note the source's spelling
`CHESIS NO`). -/
def initFields : Fields :=
  [("FORM NO", ""), ("RECORD NO", ""), ("SALES DATE", ""),
   ("CUSTOMER NAME", ""), ("INITIALS", ""), ("E-MAIL ADDRESS", ""),
   ("DEALER NAME", ""), ("CUSTOMER ADDRESS", ""), ("CITY", ""), ("STATE", ""),
   ("CUSTOMER PHONE", ""), ("DEALER PHONE", ""), ("DELIVERY TIME", ""),
   ("INVOICE NO", ""), ("INSURANCE POLICY NO", ""), ("CHESIS NO", ""),
   ("BASIC AMOUNT", ""), ("INSURANCE AMOUNT", ""), ("TOTAL AMOUNT", ""),
   ("DISCOUNT", ""), ("NET AMOUNT", ""), ("EMPLOYER", ""),
   ("CREDIT CARD NO", ""), ("REMARK", "")]

def schemaNames : List String := initFields.map Prod.fst

/-- `fields[k]` (a key absent from the object reads as `""`; the source only
ever truth-tests such reads). -/
def getF (k : String) : Fields → String
  | [] => ""
  | kv :: t => if kv.1 = k then kv.2 else getF k t

/-- `fields[k] = v` on an existing key: in-place update, order preserved. -/
def setF (k v : String) : Fields → Fields
  | [] => []
  | kv :: t => (if kv.1 = k then (k, v) else kv) :: setF k v t

def trimS (l : List Char) : String := ⟨jsTrim l⟩

/-- `a || b` on JS strings (empty is falsy). -/
def jsOr (a b : String) : String := if a = "" then b else a

/-! ### `parseFormRecord`: line-level regexes -/

def upR : RE := .cls isUpperC

def lowR : RE := .cls isLowerC

def letR : RE := .cls isLetterC

/-- `/^([A-Za-z]+\s+\d{1,2},?\s*\d{4}|[A-Za-z]+\s*\d{1,2}\s*[\d]{4})/i` -/
def dateLineRE : RE :=
  .grp 1 (.alt
    (seqR [.rep isLetterC 1 none, .rep isWsC 1 none, .rep isDigitC 1 (some 2),
      .opt (chC ','), .rep isWsC 0 none, .rep isDigitC 4 (some 4)])
    (seqR [.rep isLetterC 1 none, .rep isWsC 0 none, .rep isDigitC 1 (some 2),
      .rep isWsC 0 none, .rep isDigitC 4 (some 4)]))

def isEmailLocalC (c : Char) : Bool :=
  isLetterC c || isDigitC c || [('.' : Char), '_', '%', '+', '-'].contains c

def isEmailDomC (c : Char) : Bool :=
  isLetterC c || isDigitC c || c == '.' || c == '-'

/-- `/([a-zA-Z0-9._%+-]+@[a-zA-Z0-9.-]+\.[a-zA-Z]{2,})/i` -/
def emailRE : RE :=
  .grp 1 (seqR [.rep isEmailLocalC 1 none, chC '@', .rep isEmailDomC 1 none,
    chC '.', .rep isLetterC 2 none])

/-- `/([A-Z][A-Za-z]*\.?\s+[A-Z][A-Za-z]*(?:\s+[A-Z][A-Za-z]*)?)/` -/
def custNameRE : RE :=
  .grp 1 (seqR [upR, .rep isLetterC 0 none, .opt (chC '.'),
    .rep isWsC 1 none, upR, .rep isLetterC 0 none,
    .opt (seqR [.rep isWsC 1 none, upR, .rep isLetterC 0 none])])

/-- `/(\d+[^,]+(?:St|Ave|Dr|Rd|Blvd|Lane|Trail|Ct|Road|Avenue|Drive|Street|Boulevard))/i` -/
def addressRE : RE :=
  .grp 1 (seqR [.rep isDigitC 1 none, .rep (fun c => !(c == ',')) 1 none,
    altStrI ["St", "Ave", "Dr", "Rd", "Blvd", "Lane", "Trail", "Ct", "Road",
      "Avenue", "Drive", "Street", "Boulevard"]])

def isCityC (c : Char) : Bool :=
  isLetterC c || isWsC c || c == '.' || c == Char.ofNat 39

/-- `/([A-Za-z\s.']+)(?:\s+)([A-Z]{2})/` -/
def cityStateRE : RE :=
  seqR [.grp 1 (.rep isCityC 1 none), .rep isWsC 1 none,
    .grp 2 (seqR [upR, upR])]

/-- `/^[\s]*([A-Za-z]+\s*[A-Za-z.]+)/` -/
def initialsRE : RE :=
  seqR [.rep isWsC 0 none,
    .grp 1 (seqR [.rep isLetterC 1 none, .rep isWsC 0 none,
      .rep (fun c => isLetterC c || c == '.') 1 none])]

/-- `/(\d{9,12})/` -/
def phoneRE : RE := .grp 1 (.rep isDigitC 9 (some 12))

/-- `/\b(Morning|Evening|Afternoon|Anytime)(?:\s+at\s+(?:Work|Home))?\b/i` -/
def deliveryRE : RE :=
  seqR [.wb, .grp 1 (altStrI ["Morning", "Evening", "Afternoon", "Anytime"]),
    .opt (seqR [.rep isWsC 1 none, strI "at", .rep isWsC 1 none,
      .alt (strI "Work") (strI "Home")]), .wb]

/-- `/\b([A-Z]{1,3}\d{5,7})\b/` -/
def invoiceRE : RE :=
  seqR [.wb, .grp 1 (seqR [.rep isUpperC 1 (some 3), .rep isDigitC 5 (some 7)]),
    .wb]

/-- `/\b([A-Z]{2}\d{6,7})\b/` -/
def policyRE : RE :=
  seqR [.wb, .grp 1 (seqR [upR, upR, .rep isDigitC 6 (some 7)]), .wb]

/-- `/\b(F[A-Z]\d{6,7}|V[A-Z]\d{6,7})\b/` -/
def chesisRE : RE :=
  seqR [.wb, .grp 1 (.alt
    (seqR [chC 'F', upR, .rep isDigitC 6 (some 7)])
    (seqR [chC 'V', upR, .rep isDigitC 6 (some 7)])), .wb]

/-- `/\b(\d{1,4})\b\s+(\d{1,4})\b\s+(\d{1,4})\b/` -/
def amountsRE : RE :=
  seqR [.wb, .grp 1 (.rep isDigitC 1 (some 4)), .wb, .rep isWsC 1 none,
    .grp 2 (.rep isDigitC 1 (some 4)), .wb, .rep isWsC 1 none,
    .grp 3 (.rep isDigitC 1 (some 4)), .wb]

/-- `/\b(Self\s*Employed|SelfEmployed)\b/i` -/
def employerRE : RE :=
  seqR [.wb, .grp 1 (.alt
    (seqR [strI "Self", .rep isWsC 0 none, strI "Employed"])
    (strI "SelfEmployed")), .wb]

/-- `/(\d{10})\b/` -/
def creditRE : RE := seqR [.grp 1 (.rep isDigitC 10 (some 10)), .wb]

/-- `/\b(10\d{2})\b/` -/
def recordNoRE : RE :=
  seqR [.wb, .grp 1 (seqR [chC '1', chC '0', digitR, digitR]), .wb]

/-- `/\b(\d{5}_\d{6})\b/` -/
def formNoRE : RE :=
  seqR [.wb,
    .grp 1 (seqR [.rep isDigitC 5 (some 5), chC '_', .rep isDigitC 6 (some 6)]),
    .wb]

/-- `/\b([A-Z][a-z]+\s+[A-Z][a-z]+|[A-Z]+\s+[A-Z]+)\b/g` -/
def dealerNameRE : RE :=
  seqR [.wb, .grp 1 (.alt
    (seqR [upR, .rep isLowerC 1 none, .rep isWsC 1 none, upR,
      .rep isLowerC 1 none])
    (seqR [.rep isUpperC 1 none, .rep isWsC 1 none, .rep isUpperC 1 none])),
    .wb]

/-! ### `parseFormRecord`: numeric helpers -/

/-- `(parseFloat(g) / 1000000).toFixed(3)` for an up-to-4-digit capture `g`
(round half up per the `Number.prototype.toFixed` specification). -/
def toFixed3Div1e6 (n : Nat) : List Char :=
  let k := toDec ((n + 500) / 1000)
  '0' :: '.' :: (List.replicate (3 - k.length) '0' ++ k)

/-- `parseFloat` on the decimal strings this engine produces
(`none` models `NaN`). -/
def jsParseFloat (l : List Char) : Option ℚ :=
  let intPart := l.takeWhile isDigitC
  if intPart = [] then none
  else
    let rest := l.drop intPart.length
    let frac :=
      match rest with
      | '.' :: r => r.takeWhile isDigitC
      | _ => []
    some ((parseDigits intPart : ℚ) +
      (parseDigits frac : ℚ) / ((10 : ℚ) ^ frac.length))

/-- Decimal rendering of the nonnegative rationals produced by the (dead)
total-amount computation; fuel-bounded fraction expansion. -/
def ratFracDigits : Nat → ℚ → List Char
  | 0, _ => []
  | fuel + 1, q =>
    if q = 0 then []
    else
      let q10 := q * 10
      let d := q10.floor.toNat
      Char.ofNat (48 + d) :: ratFracDigits fuel (q10 - q10.floor)

def ratToDecString (q : ℚ) : List Char :=
  let ip := q.floor.toNat
  let frac := q - q.floor
  if frac = 0 then toDec ip
  else toDec ip ++ '.' :: ratFracDigits 20 frac

/-- `(parseFloat(basic) * 1000000 + parseFloat(ins)).toString()`
(`NaN` when either operand fails to parse). -/
def totalAmountString (basic ins : String) : String :=
  match jsParseFloat basic.data, jsParseFloat ins.data with
  | some a, some b => ⟨ratToDecString (a * 1000000 + b)⟩
  | _, _ => "NaN"

/-! ### `parseFormRecord`: the four line processors -/

/-- Line 1, step 1: the sales date at the start of the line. -/
def line1Date (l : List Char) (r : Fields) : Fields :=
  match reMatchA dateLineRE l with
  | some x => setF "SALES DATE" (trimS (grpGet 1 x.2)) r
  | none => r

/-- Line 1, step 2: the e-mail address. -/
def line1Email (l : List Char) (r : Fields) : Fields :=
  match reFind emailRE l with
  | some x => setF "E-MAIL ADDRESS" (trimS (grpGet 1 x.2)) r
  | none => r

/-- Line 1, step 3: the customer name after the matched e-mail. -/
def line1Name (l : List Char) (r : Fields) : Fields :=
  match reFind emailRE l with
  | none => r
  | some x =>
    let em := grpGet 1 x.2
    let afterEmail := jsSubstringFrom l (jsIndexOf l em + (em.length : Int))
    match reFind custNameRE afterEmail with
    | some y => setF "CUSTOMER NAME" (trimS (grpGet 1 y.2)) r
    | none => r

/-- Line 1, step 4: the address after the customer name. -/
def line1Addr (l : List Char) (r : Fields) : Fields :=
  if getF "CUSTOMER NAME" r ≠ "" ∧
      -1 < jsIndexOf l (getF "CUSTOMER NAME" r).data then
    let cn := (getF "CUSTOMER NAME" r).data
    let afterName := jsSubstringFrom l (jsIndexOf l cn + (cn.length : Int))
    match reFind addressRE afterName with
    | some y => setF "CUSTOMER ADDRESS" (trimS (grpGet 1 y.2)) r
    | none => r
  else r

/-- Line 1, step 5: city and state after the address. -/
def line1City (l : List Char) (r : Fields) : Fields :=
  if getF "CUSTOMER ADDRESS" r ≠ "" ∧
      -1 < jsIndexOf l (getF "CUSTOMER ADDRESS" r).data then
    let ad := (getF "CUSTOMER ADDRESS" r).data
    let afterAddress := jsSubstringFrom l (jsIndexOf l ad + (ad.length : Int))
    match reFind cityStateRE afterAddress with
    | some y =>
      setF "STATE" (trimS (grpGet 2 y.2)) (setF "CITY" (trimS (grpGet 1 y.2)) r)
    | none => r
  else r

/-- Line 1, step 6: initials right after the matched date. -/
def line1Init (l : List Char) (r : Fields) : Fields :=
  match reMatchA dateLineRE l with
  | none => r
  | some x =>
    let dm := grpGet 1 x.2
    if -1 < jsIndexOf l dm then
      let afterDate := jsSubstringFrom l (jsIndexOf l dm + (dm.length : Int))
      match reMatchA initialsRE afterDate with
      | some y => setF "INITIALS" (trimS (grpGet 1 y.2)) r
      | none => r
    else r

/-- Line 1: date, e-mail, customer name, address, city/state, initials. -/
def processLine1 (l : List Char) (r : Fields) : Fields :=
  line1Init l (line1City l (line1Addr l (line1Name l (line1Email l
    (line1Date l r)))))

/-- Line 2, step 1: customer phone, then a later dealer phone. -/
def line2Phones (l : List Char) (r : Fields) : Fields :=
  match reFind phoneRE l with
  | none => r
  | some x =>
    let ph := grpGet 1 x.2
    let r1 := setF "CUSTOMER PHONE" (trimS ph) r
    let afterPhone := jsSubstringFrom l (jsIndexOf l ph + (ph.length : Int))
    match reFind phoneRE afterPhone with
    | some y => setF "DEALER PHONE" (trimS (grpGet 1 y.2)) r1
    | none => r1

/-- Line 2, step 2: the delivery-time keyword (the full match `[0]`). -/
def line2Delivery (l : List Char) (r : Fields) : Fields :=
  match reFind deliveryRE l with
  | some x => setF "DELIVERY TIME" (trimS x.1) r
  | none => r

/-- Line 2, steps 3-5: the three alphanumeric code patterns, in table order. -/
def line2Invoice (l : List Char) (r : Fields) : Fields :=
  match reFind invoiceRE l with
  | some x => setF "INVOICE NO" (trimS (grpGet 1 x.2)) r
  | none => r

def line2Policy (l : List Char) (r : Fields) : Fields :=
  match reFind policyRE l with
  | some x => setF "INSURANCE POLICY NO" (trimS (grpGet 1 x.2)) r
  | none => r

def line2Chesis (l : List Char) (r : Fields) : Fields :=
  match reFind chesisRE l with
  | some x => setF "CHESIS NO" (trimS (grpGet 1 x.2)) r
  | none => r

/-- Line 2: phones, delivery time, invoice / policy / chesis numbers. -/
def processLine2 (l : List Char) (r : Fields) : Fields :=
  line2Chesis l (line2Policy l (line2Invoice l (line2Delivery l
    (line2Phones l r))))

/-- Line 3, step 1: the three positional amounts. -/
def line3Amounts (l : List Char) (r : Fields) : Fields :=
  match reFind amountsRE l with
  | some x =>
    setF "TOTAL AMOUNT" (trimS (grpGet 3 x.2))
      (setF "INSURANCE AMOUNT" (trimS (grpGet 2 x.2))
        (setF "BASIC AMOUNT" ⟨toFixed3Div1e6 (parseDigits (grpGet 1 x.2))⟩ r))
  | none => r

/-- Line 3, step 2: the employer keyword. -/
def line3Employer (l : List Char) (r : Fields) : Fields :=
  match reFind employerRE l with
  | some _ => setF "EMPLOYER" "SelfEmployed" r
  | none => r

/-- Line 3: the three positional amounts and the employer keyword. -/
def processLine3 (l : List Char) (r : Fields) : Fields :=
  line3Employer l (line3Amounts l r)

/-- Line 4: credit card number. -/
def processLine4 (l : List Char) (r : Fields) : Fields :=
  match reFind creditRE l with
  | some (_, cp) => setF "CREDIT CARD NO" (trimS (grpGet 1 cp)) r
  | none => r

/-- First line whose regex matches, returning the trimmed first group
(the source's `for … of lines` with `break`). -/
def scanFirst (re : RE) (lines : List (List Char)) : Option String :=
  lines.findSome? (fun l => (reFind re l).map (fun x => trimS (grpGet 1 x.2)))

/-- Lines 891-898: derive `TOTAL AMOUNT` when absent. -/
def calcTotal (r : Fields) : Fields :=
  if getF "BASIC AMOUNT" r ≠ "" ∧ getF "INSURANCE AMOUNT" r ≠ "" ∧
      getF "TOTAL AMOUNT" r = "" then
    setF "TOTAL AMOUNT"
      (totalAmountString (getF "BASIC AMOUNT" r) (getF "INSURANCE AMOUNT" r)) r
  else r

/-- Lines 900-904: derive `INITIALS` from `CUSTOMER NAME` when absent. -/
def deriveInit (r : Fields) : Fields :=
  if getF "CUSTOMER NAME" r ≠ "" ∧ getF "INITIALS" r = "" then
    setF "INITIALS" (generateInitials (getF "CUSTOMER NAME" r)) r
  else r

/-- Lines 906-910: render `SALES DATE` when present. -/
def fmtSales (r : Fields) : Fields :=
  if getF "SALES DATE" r ≠ "" then
    setF "SALES DATE" (formatDateToMonthDayYear (getF "SALES DATE" r)) r
  else r

/-- `if (lines.length >= 1) { … first line … }` -/
def lineStage1 (lines : List (List Char)) (r : Fields) : Fields :=
  if 1 ≤ lines.length then processLine1 (lines.getD 0 []) r else r

def lineStage2 (lines : List (List Char)) (r : Fields) : Fields :=
  if 2 ≤ lines.length then processLine2 (lines.getD 1 []) r else r

def lineStage3 (lines : List (List Char)) (r : Fields) : Fields :=
  if 3 ≤ lines.length then processLine3 (lines.getD 2 []) r else r

def lineStage4 (lines : List (List Char)) (r : Fields) : Fields :=
  if 4 ≤ lines.length then processLine4 (lines.getD 3 []) r else r

/-- The all-lines scan for the record number (source lines 871-879). -/
def scanRecordNo (lines : List (List Char)) (r : Fields) : Fields :=
  match scanFirst recordNoRE lines with
  | some v => setF "RECORD NO" v r
  | none => r

/-- The all-lines scan for the form number (source lines 881-889). -/
def scanFormNo (lines : List (List Char)) (r : Fields) : Fields :=
  match scanFirst formNoRE lines with
  | some v => setF "FORM NO" v r
  | none => r

/-- The whole extraction phase (source lines 707-910): everything before the
known-record overrides. -/
def extractFields (lines : List (List Char)) : Fields :=
  fmtSales (deriveInit (calcTotal
    (scanFormNo lines (scanRecordNo lines
      (lineStage4 lines (lineStage3 lines
        (lineStage2 lines (lineStage1 lines initFields))))))))

/-! ### `parseFormRecord`: known-record overrides and fallbacks -/

/-- `fields[k] = fields[k] || v` for each pair, in source order. -/
def applyKnown (tbl : List (String × String)) (r : Fields) : Fields :=
  tbl.foldl (fun r kv => setF kv.1 (jsOr (getF kv.1 r) kv.2) r) r

def knownRec1047 : List (String × String) :=
  [("FORM NO", "12428_000065"), ("SALES DATE", "January 8, 2021"),
   ("CUSTOMER NAME", "Caldwell Jesse"), ("INITIALS", "C.J."),
   ("E-MAIL ADDRESS", "minett-perry@earthlimk.net"),
   ("DEALER NAME", "Michelle Jackeson"),
   ("CUSTOMER ADDRESS", "1128 27 Ave NW"), ("CITY", "Horsefly"),
   ("STATE", "BC"), ("CUSTOMER PHONE", "7804668694"),
   ("DEALER PHONE", "6642780842"), ("DELIVERY TIME", "Evening"),
   ("INVOICE NO", "RE826178"), ("INSURANCE POLICY NO", "CA865350"),
   ("CHESIS NO", "FF428916"), ("BASIC AMOUNT", "0.067"),
   ("INSURANCE AMOUNT", "6700"), ("TOTAL AMOUNT", "73700"),
   ("DISCOUNT", "9.2"), ("NET AMOUNT", "67656.6"),
   ("EMPLOYER", "SelfEmployed"), ("CREDIT CARD NO", "5342704018")]

def knownRec1048 : List (String × String) :=
  [("FORM NO", "12428_000065"), ("SALES DATE", "February 7, 2021"),
   ("CUSTOMER NAME", "Cooper BJ"), ("INITIALS", "C.B.J."),
   ("E-MAIL ADDRESS", "milewicz@alltel.net"), ("DEALER NAME", "Carl Unbehaun"),
   ("CUSTOMER ADDRESS", "1152 Fort Garry Rd"), ("CITY", "Rosetown"),
   ("STATE", "SK"), ("CUSTOMER PHONE", "7057563700"),
   ("DEALER PHONE", "8672726162"), ("DELIVERY TIME", "Anytime"),
   ("INVOICE NO", "Q740984"), ("INSURANCE POLICY NO", "KY769266"),
   ("CHESIS NO", "FF224266"), ("BASIC AMOUNT", "0.022"),
   ("INSURANCE AMOUNT", "880"), ("TOTAL AMOUNT", "22880"),
   ("DISCOUNT", "7.2"), ("NET AMOUNT", "21232.64"),
   ("EMPLOYER", "SelfEmployed"), ("CREDIT CARD NO", "8662706388")]

def knownRec1049 : List (String × String) :=
  [("FORM NO", "12428_000065"), ("SALES DATE", "May 5, 2021"),
   ("CUSTOMER NAME", "Reid Ronald E"), ("INITIALS", "R.R.E."),
   ("E-MAIL ADDRESS", "chattykathy42@hotmail.com"),
   ("DEALER NAME", "Donna Brito"), ("CUSTOMER ADDRESS", "1178 Huron St"),
   ("CITY", "Montreal"), ("STATE", "QC"), ("CUSTOMER PHONE", "7057486160"),
   ("DEALER PHONE", "4982411271"), ("DELIVERY TIME", "Anytime"),
   ("INVOICE NO", "CI441535"), ("INSURANCE POLICY NO", "FL762116"),
   ("CHESIS NO", "DF707364"), ("BASIC AMOUNT", "0.078"),
   ("INSURANCE AMOUNT", "3120"), ("TOTAL AMOUNT", "81120"),
   ("DISCOUNT", "9.7"), ("NET AMOUNT", "73251.36"),
   ("EMPLOYER", "SelfEmployed"), ("CREDIT CARD NO", "5056779734")]

def knownRec1056 : List (String × String) :=
  [("FORM NO", "12428_000065"), ("SALES DATE", "May 5, 2021"),
   ("CUSTOMER NAME", "Karlene Peeren"), ("INITIALS", "K.P."),
   ("E-MAIL ADDRESS", "oRlenlSM@AOLCOM"), ("DEALER NAME", "Cooper K."),
   ("CUSTOMER ADDRESS", "40 Paeilge View"), ("CITY", "North York"),
   ("STATE", "ON"), ("CUSTOMER PHONE", "6494148427"), ("DEALER PHONE", ""),
   ("DELIVERY TIME", "Evening"), ("INVOICE NO", "CI694566"),
   ("INSURANCE POLICY NO", "FL6S9165"), ("CHESIS NO", "DIE6OT5"),
   ("BASIC AMOUNT", "0.022"), ("INSURANCE AMOUNT", ""), ("TOTAL AMOUNT", ""),
   ("DISCOUNT", ""), ("NET AMOUNT", ""), ("EMPLOYER", "SelfEmployed"),
   ("CREDIT CARD NO", "6627829921")]

/-- Source lines 912-1012: the known-record override ladder. -/
def applyOverrides (r : Fields) : Fields :=
  if getF "RECORD NO" r = "1047" then applyKnown knownRec1047 r
  else if getF "RECORD NO" r = "1048" then applyKnown knownRec1048 r
  else if getF "RECORD NO" r = "1049" then applyKnown knownRec1049 r
  else if getF "RECORD NO" r = "1056" then applyKnown knownRec1056 r
  else r

/-- `haystack.includes(sub)`. -/
def containsSub (hay sub : List Char) : Bool := 0 ≤ jsIndexOf hay sub

/-- Source lines 1014-1031: the dealer-name backstop scan. -/
def dealerScan (lines : List (List Char)) (cn : String) : Option String :=
  lines.findSome? (fun l =>
    let names := reMatchAll dealerNameRE l
    names.findSome? (fun nm =>
      if (⟨nm⟩ : String) ≠ cn ∧ !containsSub l "Self".data then
        some (trimS nm)
      else none))

def dealerStage (lines : List (List Char)) (r : Fields) : Fields :=
  if getF "DEALER NAME" r = "" ∧ getF "CUSTOMER NAME" r ≠ "" then
    match dealerScan lines (getF "CUSTOMER NAME" r) with
    | some d => setF "DEALER NAME" d r
    | none => r
  else r

/-- Source lines 1033-1036: the hardcoded `FORM NO` default. -/
def formNoDefault (r : Fields) : Fields :=
  if getF "FORM NO" r = "" then setF "FORM NO" "12428_000065" r else r

/-- Source lines 1038-1050: per-field placeholder defaults. -/
def placeholderFor (k : String) : String :=
  if k = "BASIC AMOUNT" then "0.022"
  else if k = "INSURANCE AMOUNT" then "880"
  else if k = "TOTAL AMOUNT" then "22880"
  else if k = "DISCOUNT" then "5.0"
  else if k = "NET AMOUNT" then "21736.00"
  else if k = "EMPLOYER" then "SelfEmployed"
  else if k = "DELIVERY TIME" then "Anytime"
  else ""

def fillPlaceholders (r : Fields) : Fields :=
  r.map (fun kv => (kv.1, if kv.2 = "" then placeholderFor kv.1 else kv.2))

/-- `text.split('\n').map(trim).filter(nonempty)`. -/
def cleanLines (t : String) : List (List Char) :=
  ((splitNl t.data).map jsTrim).filter (fun l => l ≠ [])

/-- `function parseFormRecord(text)`. -/
def parseFormRecord (t : String) : Fields :=
  let lines := cleanLines t
  fillPlaceholders (formNoDefault
    (dealerStage lines (applyOverrides (extractFields lines))))

/-! ### `parseFormData`: record-start patterns -/

def isFormCodeC (c : Char) : Bool :=
  isLetterC c || isDigitC c || [('_' : Char), '-', '.', '/'].contains c

def isCustNameC (c : Char) : Bool :=
  isLetterC c || isWsC c || [(',' : Char), '.', Char.ofNat 39, '-'].contains c

def labelTailR : RE :=
  seqR [.rep isWsC 0 none, altList [strI "NO", strI "No", strI "Number",
    strR "#"], chC ':', .rep isWsC 0 none, .rep isFormCodeC 1 none]

/-- The ten primary record-start patterns (each anchored with `^`). -/
def primaryPatterns : List RE :=
  [seqR [altStrI ["January", "February", "March", "April", "May", "June",
      "July", "August", "September", "October", "November", "December"],
    .rep isWsC 0 none, .rep isDigitC 1 (some 2), chC ',', .rep isWsC 0 none,
    .rep isDigitC 4 (some 4)],
   seqR [altStrI ["Jan", "Feb", "Mar", "Apr", "May", "Jun", "Jul", "Aug",
      "Sep", "Sept", "Oct", "Nov", "Dec"],
    .rep isWsC 0 none, .rep isDigitC 1 (some 2), chC ',', .rep isWsC 0 none,
    .rep isDigitC 4 (some 4)],
   seqR [.rep isDigitC 1 (some 2), .rep isWsC 0 none, chC '/',
    .rep isWsC 0 none, .rep isDigitC 1 (some 2), .rep isWsC 0 none, chC '/',
    .rep isWsC 0 none, .rep isDigitC 4 (some 4)],
   seqR [altStrI ["FORM", "Form"], labelTailR],
   seqR [upR, upR, .rep isDigitC 5 none],
   seqR [.rep (fun c => isUpperC c || isDigitC c) 5 none, chC '_',
    .rep isDigitC 6 (some 6)],
   seqR [altStrI ["RECORD", "Record"], labelTailR],
   seqR [altStrI ["CUSTOMER", "Client", "Customer"], .rep isWsC 0 none,
    altList [strI "NAME", strI "Name"], chC ':', .rep isWsC 0 none,
    .rep isCustNameC 1 none],
   seqR [altStrI ["EMAIL", "E-mail", "E-MAIL"], chC ':', .rep isWsC 0 none,
    .rep isEmailLocalC 1 none, chC '@', .rep isEmailDomC 1 none, chC '.',
    .rep isLetterC 2 none],
   seqR [.grp 1 (.rep isDigitC 1 none), .cls (fun c => c == '.' || isWsC c)]]

/-- The three secondary patterns (anchored). -/
def secondaryPatterns : List RE :=
  [seqR [upR, .rep isLowerC 1 none, .rep isWsC 1 none, upR,
    .rep isLowerC 1 none, .wb],
   altList
    [seqR [.rep isDigitC 3 (some 3),
      .cls (fun c => c == '-' || c == '.' || isWsC c),
      .rep isDigitC 3 (some 3),
      .cls (fun c => c == '-' || c == '.' || isWsC c),
      .rep isDigitC 4 (some 4)],
     seqR [chC '(', .rep isDigitC 3 (some 3), chC ')', .rep isWsC 0 none,
      .rep isDigitC 3 (some 3),
      .cls (fun c => c == '-' || c == '.' || isWsC c),
      .rep isDigitC 4 (some 4)]],
   seqR [altStrI ["BASIC", "Basic", "BASE", "Insurance"], .rep isWsC 1 none,
    altList [strI "AMOUNT", strI "Amount"], chC ':']]

/-- `/^[-=_*]{3,}$/` -/
def sepLineRE : RE :=
  seqR [.rep (fun c => [('-' : Char), '=', '_', '*'].contains c) 3 none, .eos]

/-- `/^\d+[.)]\s/` -/
def numberedRE : RE :=
  seqR [.rep isDigitC 1 none, .cls (fun c => c == '.' || c == ')'), wsR]

/-- `/^[A-Z]\d+[.)]\s/` -/
def letterNumberedRE : RE :=
  seqR [upR, .rep isDigitC 1 none, .cls (fun c => c == '.' || c == ')'), wsR]

/-- `/^[1-9][.)]\s/` -/
def earlyNumberedRE : RE :=
  seqR [.cls (fun c => 49 ≤ c.toNat && c.toNat ≤ 57),
    .cls (fun c => c == '.' || c == ')'), wsR]

/-- `/\d{1,2}\/\d{1,2}\/\d{4}/` (unanchored containment test). -/
def dateAnywhereRE : RE :=
  seqR [.rep isDigitC 1 (some 2), chC '/', .rep isDigitC 1 (some 2), chC '/',
    .rep isDigitC 4 (some 4)]

/-! ### `parseFormData`: the cascading index accumulation -/

/-- One line of the first pass. -/
def stage1Step (acc : List Nat) (il : Nat × List Char) : List Nat :=
  if primaryPatterns.any (fun re => reTestA re il.2) then acc ++ [il.1]
  else acc

/-- First pass: primary patterns (source lines 503-511). -/
def stage1 (lines : List (List Char)) : List Nat :=
  lines.enum.foldl stage1Step []

/-- One line of the second pass. -/
def stage2Step (lines : List (List Char)) (acc : List Nat)
    (il : Nat × List Char) : List Nat :=
  if acc.contains il.1 then acc
  else if il.2.length < 10 then acc
  else
    if secondaryPatterns.any (fun re => reTestA re il.2) ∧
        ((0 < il.1 ∧
          (jsTrim (lines.getD (il.1 - 1) []) = [] ∨
            reTestA sepLineRE (lines.getD (il.1 - 1) []))) ∨ il.1 = 0) then
      acc ++ [il.1]
    else acc

/-- Second pass: secondary patterns with context (source lines 513-536). -/
def stage2 (lines : List (List Char)) (acc0 : List Nat) : List Nat :=
  lines.enum.foldl (stage2Step lines) acc0

/-- One line of the third pass: the numbered-list rule, then the e-mail
transition rule, then the date transition rule, each on the current state. -/
def stage3Step (lines : List (List Char)) (acc : List Nat)
    (il : Nat × List Char) : List Nat :=
  if acc.contains il.1 then acc
  else
    let i := il.1
    let l := il.2
    let acc1 :=
      if reTestA numberedRE l || reTestA letterNumberedRE l then
        if 3 < i ∧ acc.contains (i - 3) then acc ++ [i]
        else if reTestA earlyNumberedRE l then acc ++ [i]
        else acc
      else acc
    let prev := lines.getD (i - 1) []
    let acc2 :=
      if 0 < i ∧ jsIncludesChar l '@' ∧ ¬jsIncludesChar prev '@' = true ∧
          ¬acc1.contains (i - 1) = true then
        acc1 ++ [i]
      else acc1
    if 0 < i ∧ reTest dateAnywhereRE l ∧ ¬reTest dateAnywhereRE prev = true ∧
        ¬acc2.contains (i - 1) = true then
      acc2 ++ [i]
    else acc2

/-- Third pass: aggressive splitting (source lines 538-572). -/
def stage3 (lines : List (List Char)) (acc0 : List Nat) : List Nat :=
  lines.enum.foldl (stage3Step lines) acc0

/-- `lines[k].substring(0, Math.min(5, lines[k].length))`. -/
def first5 (l : List Char) : List Char := l.take 5

/-- The inner while-loop of the periodicity check: walks `k, k+d, …` and
returns (no structural mismatch found, number of prefix repetitions). -/
def periodCheckAux (lines : List (List Char)) (d : Nat) :
    Nat → Nat → Bool × Nat
  | _, 0 => (true, 0)
  | k, fuel + 1 =>
    if k < lines.length then
      if k + d < lines.length then
        if first5 (lines.getD k []) = first5 (lines.getD (k + d) []) then
          let rest := periodCheckAux lines d (k + d) fuel
          (rest.1, rest.2 + 1)
        else (false, 0)
      else (true, 0)
    else (true, 0)

def periodCheck (lines : List (List Char)) (d i : Nat) : Bool × Nat :=
  periodCheckAux lines d i (lines.length + 1)

/-- `for (let i = startLine; i < lines.length; i += distance)`. -/
def strideRangeAux (d len : Nat) : Nat → Nat → List Nat
  | _, 0 => []
  | s, fuel + 1 => if s < len then s :: strideRangeAux d len (s + d) fuel else []

def strideRange (s d len : Nat) : List Nat := strideRangeAux d len s (len + 1)

/-- One candidate start line of the periodicity check. -/
def candStep (lines : List (List Char)) (d : Nat)
    (cs : List (Nat × Nat × Nat)) (i : Nat) : List (Nat × Nat × Nat) :=
  if (periodCheck lines d i).1 ∧ 3 ≤ (periodCheck lines d i).2 then
    cs ++ [(i, d, (periodCheck lines d i).2)]
  else cs

/-- The stable descending sort by occurrences followed by `[0]` picks the
first candidate with the most occurrences. -/
def pickCand (b c : Nat × Nat × Nat) : Nat × Nat × Nat :=
  if b.2.2 < c.2.2 then c else b

/-- One iteration of the periodicity fallback for a candidate line distance
(source lines 583-640). -/
def stage4Step (lines : List (List Char)) (acc : List Nat) (d : Nat) :
    List Nat :=
  if 5 < acc.length then acc
  else
    match (List.range (min d lines.length)).foldl (candStep lines d) [] with
    | [] => acc
    | c0 :: rest =>
      strideRange (rest.foldl pickCand c0).1 (rest.foldl pickCand c0).2.1
        lines.length

/-- The full cascade: the final list of record-start line indices. -/
def recordStartIndices (t : String) : List Nat :=
  let lines := cleanLines t
  let a1 := stage1 lines
  let a2 := if a1.length < 5 then stage2 lines a1 else a1
  let a3 := if a2.length < 10 then stage3 lines a2 else a2
  let srt := a3.insertionSort (· ≤ ·)
  if srt.length < 3 then [4, 5, 6, 7, 8, 10, 12, 15].foldl (stage4Step lines) srt
  else srt

/-- Each span runs from one start to the next, the last one to the end. -/
def mkSpans (idx : List Nat) (len : Nat) : List (Nat × Nat) :=
  idx.zip (idx.tail ++ [len])

def joinLines (ls : List (List Char)) : String := ⟨List.intercalate ['\n'] ls⟩

/-- `Object.values(record).some(v => v && v.trim() !== '')`. -/
def nonEmptyRec (r : Fields) : Bool :=
  r.any (fun kv => kv.2 != "" && jsTrim kv.2.data != [])

/-- The record parsed from one span's lines. -/
def spanRecord (lines : List (List Char)) (se : Nat × Nat) : Fields :=
  parseFormRecord (joinLines ((lines.drop se.1).take (se.2 - se.1)))

/-- The `forEach` over spans: parse each span, keep the non-empty records. -/
def recordsOf (lines : List (List Char)) (spans : List (Nat × Nat)) :
    List Fields :=
  spans.foldl
    (fun acc se =>
      if nonEmptyRec (spanRecord lines se) then acc ++ [spanRecord lines se]
      else acc)
    []

/-- `function parseFormData(text)`.  The branch that the source takes when
every span-record was discarded calls `getDefaultFields()`, which is not
defined anywhere in the server module; executing it would throw a
`ReferenceError`, modelled here as the `Except.error` case. -/
def parseFormData (text : String) : Except String (List Fields) :=
  let lines := cleanLines text
  let idx := recordStartIndices text
  if idx = [] then .ok [parseFormRecord text]
  else
    let records := recordsOf lines (mkSpans idx lines.length)
    if records = [] then .error "ReferenceError: getDefaultFields is not defined"
    else .ok records

/-! ## Proof infrastructure: the field object as an association list -/

def keysOf (r : Fields) : List String := r.map Prod.fst

/-- Proof-side predicate: the object has key `k`. -/
def hasK (k : String) (r : Fields) : Prop := k ∈ keysOf r

instance (k : String) (r : Fields) : Decidable (hasK k r) := by
  unfold hasK; infer_instance

@[simp] theorem keysOf_setF (k v : String) (r : Fields) :
    keysOf (setF k v r) = keysOf r := by
  induction r with
  | nil => rfl
  | cons kv t ih =>
    by_cases h : kv.1 = k
    · simp only [setF, if_pos h, keysOf, List.map_cons] at *
      rw [ih, h]
    · simp only [setF, if_neg h, keysOf, List.map_cons] at *
      rw [ih]

@[simp] theorem keysOf_fillPlaceholders (r : Fields) :
    keysOf (fillPlaceholders r) = keysOf r := by
  induction r with
  | nil => rfl
  | cons kv t ih =>
    simp only [fillPlaceholders, keysOf, List.map_cons] at *
    rw [ih]

theorem getF_setF (k' k v : String) (r : Fields) :
    getF k' (setF k v r) =
      if k' = k then (if hasK k r then v else "") else getF k' r := by
  induction r with
  | nil => by_cases h : k' = k <;> simp [getF, setF, hasK, keysOf, h]
  | cons kv t ih =>
    simp only [setF]
    by_cases hk : kv.1 = k
    · rw [if_pos hk]
      simp only [getF]
      by_cases h : k' = k
      · subst h
        simp [hasK, keysOf, hk]
      · have hkk : ¬(k = k') := fun e => h e.symm
        have hkv : ¬(kv.1 = k') := by rw [hk]; exact hkk
        simp only [hkk, if_false, ih, h, if_neg h, hkv]
    · rw [if_neg hk]
      simp only [getF]
      by_cases hh : kv.1 = k'
      · have h : ¬(k' = k) := by rw [← hh]; exact hk
        simp [hh, h]
      · simp only [hh, if_false, ih]
        by_cases h : k' = k
        · subst h
          have hiff : hasK k' (kv :: t) ↔ hasK k' t := by
            simp only [hasK, keysOf, List.map_cons, List.mem_cons]
            constructor
            · rintro (e | e)
              · exact absurd e.symm hk
              · exact e
            · exact Or.inr
          simp [hiff]
        · simp [h]

theorem hasK_setF (k' k v : String) (r : Fields) :
    hasK k' (setF k v r) ↔ hasK k' r := by
  unfold hasK; rw [keysOf_setF]

theorem getF_setF_ne (h : k' ≠ k) (v : String) (r : Fields) :
    getF k' (setF k v r) = getF k' r := by
  rw [getF_setF]; simp [h]

theorem getF_setF_self (h : hasK k r) (v : String) :
    getF k (setF k v r) = v := by
  rw [getF_setF]; simp [h]

theorem getF_fillPlaceholders (k : String) (r : Fields) (h : hasK k r) :
    getF k (fillPlaceholders r) =
      (if getF k r = "" then placeholderFor k else getF k r) := by
  induction r with
  | nil => simp [hasK, keysOf] at h
  | cons kv t ih =>
    simp only [fillPlaceholders, List.map_cons] at *
    simp only [getF]
    by_cases hh : kv.1 = k
    · simp [hh]
    · simp only [hh, if_false]
      have ht : hasK k t := by
        simp only [hasK, keysOf, List.map_cons, List.mem_cons] at h
        rcases h with h | h
        · exact absurd h.symm hh
        · exact h
      exact ih ht

theorem getF_mem (k : String) (r : Fields) (h : getF k r ≠ "") :
    (k, getF k r) ∈ r := by
  induction r with
  | nil => simp [getF] at h
  | cons kv t ih =>
    simp only [getF] at h ⊢
    by_cases hh : kv.1 = k
    · rw [if_pos hh] at h ⊢
      obtain ⟨a, b⟩ := kv
      simp only at hh
      subst hh
      exact List.mem_cons_self _ _
    · rw [if_neg hh] at h ⊢
      exact List.mem_cons_of_mem _ (ih h)

/-! ## Keys preservation through every stage of `parseFormRecord` -/

theorem keysOf_line1Date (l : List Char) (r : Fields) :
    keysOf (line1Date l r) = keysOf r := by
  unfold line1Date
  (try dsimp only)
  repeat' split
  all_goals first | rfl | simp

theorem keysOf_line1Email (l : List Char) (r : Fields) :
    keysOf (line1Email l r) = keysOf r := by
  unfold line1Email
  (try dsimp only)
  repeat' split
  all_goals first | rfl | simp

theorem keysOf_line1Name (l : List Char) (r : Fields) :
    keysOf (line1Name l r) = keysOf r := by
  unfold line1Name
  (try dsimp only)
  repeat' split
  all_goals first | rfl | simp

theorem keysOf_line1Addr (l : List Char) (r : Fields) :
    keysOf (line1Addr l r) = keysOf r := by
  unfold line1Addr
  (try dsimp only)
  repeat' split
  all_goals first | rfl | simp

theorem keysOf_line1City (l : List Char) (r : Fields) :
    keysOf (line1City l r) = keysOf r := by
  unfold line1City
  (try dsimp only)
  repeat' split
  all_goals first | rfl | simp

theorem keysOf_line1Init (l : List Char) (r : Fields) :
    keysOf (line1Init l r) = keysOf r := by
  unfold line1Init
  (try dsimp only)
  repeat' split
  all_goals first | rfl | simp

theorem keysOf_processLine1 (l : List Char) (r : Fields) :
    keysOf (processLine1 l r) = keysOf r := by
  unfold processLine1
  rw [keysOf_line1Init, keysOf_line1City, keysOf_line1Addr, keysOf_line1Name,
    keysOf_line1Email, keysOf_line1Date]

theorem keysOf_line2Phones (l : List Char) (r : Fields) :
    keysOf (line2Phones l r) = keysOf r := by
  unfold line2Phones
  (try dsimp only)
  repeat' split
  all_goals first | rfl | simp

theorem keysOf_line2Delivery (l : List Char) (r : Fields) :
    keysOf (line2Delivery l r) = keysOf r := by
  unfold line2Delivery
  (try dsimp only)
  repeat' split
  all_goals first | rfl | simp

theorem keysOf_line2Invoice (l : List Char) (r : Fields) :
    keysOf (line2Invoice l r) = keysOf r := by
  unfold line2Invoice
  (try dsimp only)
  repeat' split
  all_goals first | rfl | simp

theorem keysOf_line2Policy (l : List Char) (r : Fields) :
    keysOf (line2Policy l r) = keysOf r := by
  unfold line2Policy
  (try dsimp only)
  repeat' split
  all_goals first | rfl | simp

theorem keysOf_line2Chesis (l : List Char) (r : Fields) :
    keysOf (line2Chesis l r) = keysOf r := by
  unfold line2Chesis
  (try dsimp only)
  repeat' split
  all_goals first | rfl | simp

theorem keysOf_processLine2 (l : List Char) (r : Fields) :
    keysOf (processLine2 l r) = keysOf r := by
  unfold processLine2
  rw [keysOf_line2Chesis, keysOf_line2Policy, keysOf_line2Invoice,
    keysOf_line2Delivery, keysOf_line2Phones]

theorem keysOf_line3Amounts (l : List Char) (r : Fields) :
    keysOf (line3Amounts l r) = keysOf r := by
  unfold line3Amounts
  (try dsimp only)
  repeat' split
  all_goals first | rfl | simp

theorem keysOf_line3Employer (l : List Char) (r : Fields) :
    keysOf (line3Employer l r) = keysOf r := by
  unfold line3Employer
  (try dsimp only)
  repeat' split
  all_goals first | rfl | simp

theorem keysOf_processLine3 (l : List Char) (r : Fields) :
    keysOf (processLine3 l r) = keysOf r := by
  unfold processLine3
  rw [keysOf_line3Employer, keysOf_line3Amounts]

theorem keysOf_processLine4 (l : List Char) (r : Fields) :
    keysOf (processLine4 l r) = keysOf r := by
  unfold processLine4
  (try dsimp only)
  repeat' split
  all_goals first | rfl | simp

theorem keysOf_calcTotal (r : Fields) : keysOf (calcTotal r) = keysOf r := by
  unfold calcTotal
  (try dsimp only)
  repeat' split
  all_goals first | rfl | simp

theorem keysOf_deriveInit (r : Fields) : keysOf (deriveInit r) = keysOf r := by
  unfold deriveInit
  (try dsimp only)
  repeat' split
  all_goals first | rfl | simp

theorem keysOf_fmtSales (r : Fields) : keysOf (fmtSales r) = keysOf r := by
  unfold fmtSales
  (try dsimp only)
  repeat' split
  all_goals first | rfl | simp

theorem keysOf_lineStage1 (lines : List (List Char)) (r : Fields) :
    keysOf (lineStage1 lines r) = keysOf r := by
  unfold lineStage1
  split
  · exact keysOf_processLine1 _ _
  · rfl

theorem keysOf_lineStage2 (lines : List (List Char)) (r : Fields) :
    keysOf (lineStage2 lines r) = keysOf r := by
  unfold lineStage2
  split
  · exact keysOf_processLine2 _ _
  · rfl

theorem keysOf_lineStage3 (lines : List (List Char)) (r : Fields) :
    keysOf (lineStage3 lines r) = keysOf r := by
  unfold lineStage3
  split
  · exact keysOf_processLine3 _ _
  · rfl

theorem keysOf_lineStage4 (lines : List (List Char)) (r : Fields) :
    keysOf (lineStage4 lines r) = keysOf r := by
  unfold lineStage4
  split
  · exact keysOf_processLine4 _ _
  · rfl

theorem keysOf_scanRecordNo (lines : List (List Char)) (r : Fields) :
    keysOf (scanRecordNo lines r) = keysOf r := by
  unfold scanRecordNo
  split <;> simp

theorem keysOf_scanFormNo (lines : List (List Char)) (r : Fields) :
    keysOf (scanFormNo lines r) = keysOf r := by
  unfold scanFormNo
  split <;> simp

theorem keysOf_extractFields (lines : List (List Char)) :
    keysOf (extractFields lines) = schemaNames := by
  unfold extractFields
  rw [keysOf_fmtSales, keysOf_deriveInit, keysOf_calcTotal, keysOf_scanFormNo,
    keysOf_scanRecordNo, keysOf_lineStage4, keysOf_lineStage3,
    keysOf_lineStage2, keysOf_lineStage1]
  rfl

theorem keysOf_applyKnown (tbl : List (String × String)) (r : Fields) :
    keysOf (applyKnown tbl r) = keysOf r := by
  induction tbl generalizing r with
  | nil => rfl
  | cons kv t ih =>
    simp only [applyKnown, List.foldl_cons] at *
    rw [ih, keysOf_setF]

theorem keysOf_applyOverrides (r : Fields) :
    keysOf (applyOverrides r) = keysOf r := by
  unfold applyOverrides
  by_cases h1 : getF "RECORD NO" r = "1047"
  · rw [if_pos h1, keysOf_applyKnown]
  · rw [if_neg h1]
    by_cases h2 : getF "RECORD NO" r = "1048"
    · rw [if_pos h2, keysOf_applyKnown]
    · rw [if_neg h2]
      by_cases h3 : getF "RECORD NO" r = "1049"
      · rw [if_pos h3, keysOf_applyKnown]
      · rw [if_neg h3]
        by_cases h4 : getF "RECORD NO" r = "1056"
        · rw [if_pos h4, keysOf_applyKnown]
        · rw [if_neg h4]

theorem keysOf_dealerStage (lines : List (List Char)) (r : Fields) :
    keysOf (dealerStage lines r) = keysOf r := by
  unfold dealerStage
  (try dsimp only)
  repeat' split
  all_goals first | rfl | simp

theorem keysOf_formNoDefault (r : Fields) :
    keysOf (formNoDefault r) = keysOf r := by
  unfold formNoDefault
  (try dsimp only)
  repeat' split
  all_goals first | rfl | simp

theorem keysOf_parseFormRecord (t : String) :
    keysOf (parseFormRecord t) = schemaNames := by
  unfold parseFormRecord
  rw [keysOf_fillPlaceholders, keysOf_formNoDefault, keysOf_dealerStage,
    keysOf_applyOverrides, keysOf_extractFields]

/-! ## Frame lemmas: which keys each stage can write -/

theorem line1Date_frame (k : String) (h1 : k ≠ "SALES DATE")
    (l : List Char) (r : Fields) : getF k (line1Date l r) = getF k r := by
  unfold line1Date
  repeat' split
  all_goals first | rfl | simp [getF_setF_ne h1]

theorem line1Email_frame (k : String) (h1 : k ≠ "E-MAIL ADDRESS")
    (l : List Char) (r : Fields) : getF k (line1Email l r) = getF k r := by
  unfold line1Email
  repeat' split
  all_goals first | rfl | simp [getF_setF_ne h1]

theorem line1Name_frame (k : String) (h1 : k ≠ "CUSTOMER NAME")
    (l : List Char) (r : Fields) : getF k (line1Name l r) = getF k r := by
  unfold line1Name
  (try dsimp only)
  repeat' split
  all_goals first | rfl | simp [getF_setF_ne h1]

theorem line1Addr_frame (k : String) (h1 : k ≠ "CUSTOMER ADDRESS")
    (l : List Char) (r : Fields) : getF k (line1Addr l r) = getF k r := by
  unfold line1Addr
  (try dsimp only)
  repeat' split
  all_goals first | rfl | simp [getF_setF_ne h1]

theorem line1City_frame (k : String) (h1 : k ≠ "CITY") (h2 : k ≠ "STATE")
    (l : List Char) (r : Fields) : getF k (line1City l r) = getF k r := by
  unfold line1City
  (try dsimp only)
  repeat' split
  all_goals first | rfl | simp [getF_setF_ne h1, getF_setF_ne h2]

theorem line1Init_frame (k : String) (h1 : k ≠ "INITIALS")
    (l : List Char) (r : Fields) : getF k (line1Init l r) = getF k r := by
  unfold line1Init
  (try dsimp only)
  repeat' split
  all_goals first | rfl | simp [getF_setF_ne h1]

theorem processLine1_frame (k : String) (h1 : k ≠ "SALES DATE")
    (h2 : k ≠ "E-MAIL ADDRESS") (h3 : k ≠ "CUSTOMER NAME")
    (h4 : k ≠ "CUSTOMER ADDRESS") (h5 : k ≠ "CITY") (h6 : k ≠ "STATE")
    (h7 : k ≠ "INITIALS") (l : List Char) (r : Fields) :
    getF k (processLine1 l r) = getF k r := by
  unfold processLine1
  rw [line1Init_frame k h7, line1City_frame k h5 h6, line1Addr_frame k h4,
    line1Name_frame k h3, line1Email_frame k h2, line1Date_frame k h1]

theorem line2Phones_frame (k : String) (h1 : k ≠ "CUSTOMER PHONE")
    (h2 : k ≠ "DEALER PHONE") (l : List Char) (r : Fields) :
    getF k (line2Phones l r) = getF k r := by
  unfold line2Phones
  (try dsimp only)
  repeat' split
  all_goals first | rfl | simp [getF_setF_ne h1, getF_setF_ne h2]

theorem line2Delivery_frame (k : String) (h1 : k ≠ "DELIVERY TIME")
    (l : List Char) (r : Fields) : getF k (line2Delivery l r) = getF k r := by
  unfold line2Delivery
  repeat' split
  all_goals first | rfl | simp [getF_setF_ne h1]

theorem line2Invoice_frame (k : String) (h1 : k ≠ "INVOICE NO")
    (l : List Char) (r : Fields) : getF k (line2Invoice l r) = getF k r := by
  unfold line2Invoice
  repeat' split
  all_goals first | rfl | simp [getF_setF_ne h1]

theorem line2Policy_frame (k : String) (h1 : k ≠ "INSURANCE POLICY NO")
    (l : List Char) (r : Fields) : getF k (line2Policy l r) = getF k r := by
  unfold line2Policy
  repeat' split
  all_goals first | rfl | simp [getF_setF_ne h1]

theorem line2Chesis_frame (k : String) (h1 : k ≠ "CHESIS NO")
    (l : List Char) (r : Fields) : getF k (line2Chesis l r) = getF k r := by
  unfold line2Chesis
  repeat' split
  all_goals first | rfl | simp [getF_setF_ne h1]

theorem processLine2_frame (k : String) (h1 : k ≠ "CUSTOMER PHONE")
    (h2 : k ≠ "DEALER PHONE") (h3 : k ≠ "DELIVERY TIME")
    (h4 : k ≠ "INVOICE NO") (h5 : k ≠ "INSURANCE POLICY NO")
    (h6 : k ≠ "CHESIS NO") (l : List Char) (r : Fields) :
    getF k (processLine2 l r) = getF k r := by
  unfold processLine2
  rw [line2Chesis_frame k h6, line2Policy_frame k h5, line2Invoice_frame k h4,
    line2Delivery_frame k h3, line2Phones_frame k h1 h2]

theorem line3Amounts_frame (k : String) (h1 : k ≠ "BASIC AMOUNT")
    (h2 : k ≠ "INSURANCE AMOUNT") (h3 : k ≠ "TOTAL AMOUNT")
    (l : List Char) (r : Fields) : getF k (line3Amounts l r) = getF k r := by
  unfold line3Amounts
  repeat' split
  all_goals first | rfl | simp [getF_setF_ne h1, getF_setF_ne h2, getF_setF_ne h3]

theorem line3Employer_frame (k : String) (h1 : k ≠ "EMPLOYER")
    (l : List Char) (r : Fields) : getF k (line3Employer l r) = getF k r := by
  unfold line3Employer
  repeat' split
  all_goals first | rfl | simp [getF_setF_ne h1]

theorem processLine3_frame (k : String) (h1 : k ≠ "BASIC AMOUNT")
    (h2 : k ≠ "INSURANCE AMOUNT") (h3 : k ≠ "TOTAL AMOUNT")
    (h4 : k ≠ "EMPLOYER") (l : List Char) (r : Fields) :
    getF k (processLine3 l r) = getF k r := by
  unfold processLine3
  rw [line3Employer_frame k h4, line3Amounts_frame k h1 h2 h3]

theorem processLine4_frame (k : String) (h1 : k ≠ "CREDIT CARD NO")
    (l : List Char) (r : Fields) : getF k (processLine4 l r) = getF k r := by
  unfold processLine4
  repeat' split
  all_goals first | rfl | simp [getF_setF_ne h1]

theorem calcTotal_frame (k : String) (h1 : k ≠ "TOTAL AMOUNT") (r : Fields) :
    getF k (calcTotal r) = getF k r := by
  unfold calcTotal
  repeat' split
  all_goals first | rfl | simp [getF_setF_ne h1]

theorem deriveInit_frame (k : String) (h1 : k ≠ "INITIALS") (r : Fields) :
    getF k (deriveInit r) = getF k r := by
  unfold deriveInit
  repeat' split
  all_goals first | rfl | simp [getF_setF_ne h1]

theorem fmtSales_frame (k : String) (h1 : k ≠ "SALES DATE") (r : Fields) :
    getF k (fmtSales r) = getF k r := by
  unfold fmtSales
  repeat' split
  all_goals first | rfl | simp [getF_setF_ne h1]

theorem dealerStage_frame (k : String) (h1 : k ≠ "DEALER NAME")
    (lines : List (List Char)) (r : Fields) :
    getF k (dealerStage lines r) = getF k r := by
  unfold dealerStage
  repeat' split
  all_goals first | rfl | simp [getF_setF_ne h1]

theorem formNoDefault_frame (k : String) (h1 : k ≠ "FORM NO") (r : Fields) :
    getF k (formNoDefault r) = getF k r := by
  unfold formNoDefault
  repeat' split
  all_goals first | rfl | simp [getF_setF_ne h1]

/-- Any stage that only fills empty fields preserves a non-empty field:
`dealerStage`. -/
theorem dealerStage_keep (lines : List (List Char)) (r : Fields) (k : String)
    (h : getF k r ≠ "") : getF k (dealerStage lines r) = getF k r := by
  by_cases hk : k = "DEALER NAME"
  · subst hk
    unfold dealerStage
    by_cases hc : getF "DEALER NAME" r = "" ∧ getF "CUSTOMER NAME" r ≠ ""
    · exact absurd hc.1 h
    · rw [if_neg hc]
  · exact dealerStage_frame k hk lines r

/-- `formNoDefault` preserves a non-empty field. -/
theorem formNoDefault_keep (r : Fields) (k : String) (h : getF k r ≠ "") :
    getF k (formNoDefault r) = getF k r := by
  by_cases hk : k = "FORM NO"
  · subst hk
    unfold formNoDefault
    split
    next hc => exact absurd hc h
    next => rfl
  · exact formNoDefault_frame k hk r

/-! ## The known-record override table, generically -/

theorem getF_applyKnown_frame (k : String) (tbl : List (String × String)) :
    ∀ r : Fields, (∀ kv ∈ tbl, kv.1 ≠ k) →
      getF k (applyKnown tbl r) = getF k r := by
  induction tbl with
  | nil => intro r _; rfl
  | cons kv t ih =>
    intro r h
    have step : applyKnown (kv :: t) r =
        applyKnown t (setF kv.1 (jsOr (getF kv.1 r) kv.2) r) := rfl
    rw [step, ih _ (fun x hx => h x (List.mem_cons_of_mem _ hx)),
      getF_setF_ne (Ne.symm (h kv (List.mem_cons_self _ _)))]

theorem hasK_applyKnown (k : String) (tbl : List (String × String))
    (r : Fields) : hasK k (applyKnown tbl r) ↔ hasK k r := by
  unfold hasK
  rw [keysOf_applyKnown]

theorem getF_applyKnown (f v : String) :
    ∀ (tbl : List (String × String)) (r : Fields),
      (tbl.map Prod.fst).Nodup → (f, v) ∈ tbl → hasK f r →
      getF f (applyKnown tbl r) = jsOr (getF f r) v := by
  intro tbl
  induction tbl with
  | nil => intro r _ hmem _; cases hmem
  | cons kv t ih =>
    intro r hnd hmem hk
    have step : applyKnown (kv :: t) r =
        applyKnown t (setF kv.1 (jsOr (getF kv.1 r) kv.2) r) := rfl
    rw [step]
    simp only [List.map_cons, List.nodup_cons] at hnd
    rcases List.mem_cons.mp hmem with hh | hh
    · have hkv : kv = (f, v) := hh.symm
      subst hkv
      have hnotin : ∀ x ∈ t, x.1 ≠ f := by
        intro x hx he
        have hmm : x.1 ∈ t.map Prod.fst := List.mem_map_of_mem Prod.fst hx
        rw [he] at hmm
        exact hnd.1 hmm
      rw [getF_applyKnown_frame f t _ hnotin, getF_setF_self hk]
    · have hne : kv.1 ≠ f := by
        intro he
        have hmm : (f, v).1 ∈ t.map Prod.fst := List.mem_map_of_mem Prod.fst hh
        rw [← he] at hmm
        exact hnd.1 hmm
      rw [ih _ hnd.2 hh ((hasK_setF f kv.1 _ r).mpr hk),
        getF_setF_ne (Ne.symm hne)]

/-! ## `EMPLOYER` is always `"SelfEmployed"` in a parsed record -/

theorem employer_line3 (l : List Char) (r : Fields) (hk : hasK "EMPLOYER" r) :
    getF "EMPLOYER" (processLine3 l r) = "SelfEmployed" ∨
      getF "EMPLOYER" (processLine3 l r) = getF "EMPLOYER" r := by
  unfold processLine3 line3Employer
  cases hm : reFind employerRE l with
  | some x =>
    left
    have hk2 : hasK "EMPLOYER" (line3Amounts l r) := by
      unfold hasK
      rw [keysOf_line3Amounts]
      exact hk
    exact getF_setF_self hk2 _
  | none =>
    right
    exact line3Amounts_frame "EMPLOYER" (by decide) (by decide) (by decide) l r

theorem hasK_schema (k : String) (r : Fields) (hkeys : keysOf r = schemaNames)
    (hmem : k ∈ schemaNames) : hasK k r := by
  unfold hasK
  rw [hkeys]
  exact hmem

theorem lineStage1_frame (k : String) (h1 : k ≠ "SALES DATE")
    (h2 : k ≠ "E-MAIL ADDRESS") (h3 : k ≠ "CUSTOMER NAME")
    (h4 : k ≠ "CUSTOMER ADDRESS") (h5 : k ≠ "CITY") (h6 : k ≠ "STATE")
    (h7 : k ≠ "INITIALS") (lines : List (List Char)) (r : Fields) :
    getF k (lineStage1 lines r) = getF k r := by
  unfold lineStage1
  split
  · exact processLine1_frame k h1 h2 h3 h4 h5 h6 h7 _ _
  · rfl

theorem lineStage2_frame (k : String) (h1 : k ≠ "CUSTOMER PHONE")
    (h2 : k ≠ "DEALER PHONE") (h3 : k ≠ "DELIVERY TIME")
    (h4 : k ≠ "INVOICE NO") (h5 : k ≠ "INSURANCE POLICY NO")
    (h6 : k ≠ "CHESIS NO") (lines : List (List Char)) (r : Fields) :
    getF k (lineStage2 lines r) = getF k r := by
  unfold lineStage2
  split
  · exact processLine2_frame k h1 h2 h3 h4 h5 h6 _ _
  · rfl

theorem lineStage3_frame (k : String) (h1 : k ≠ "BASIC AMOUNT")
    (h2 : k ≠ "INSURANCE AMOUNT") (h3 : k ≠ "TOTAL AMOUNT")
    (h4 : k ≠ "EMPLOYER") (lines : List (List Char)) (r : Fields) :
    getF k (lineStage3 lines r) = getF k r := by
  unfold lineStage3
  split
  · exact processLine3_frame k h1 h2 h3 h4 _ _
  · rfl

theorem lineStage4_frame (k : String) (h1 : k ≠ "CREDIT CARD NO")
    (lines : List (List Char)) (r : Fields) :
    getF k (lineStage4 lines r) = getF k r := by
  unfold lineStage4
  split
  · exact processLine4_frame k h1 _ _
  · rfl

theorem scanRecordNo_frame (k : String) (h1 : k ≠ "RECORD NO")
    (lines : List (List Char)) (r : Fields) :
    getF k (scanRecordNo lines r) = getF k r := by
  unfold scanRecordNo
  split
  · exact getF_setF_ne h1 _ _
  · rfl

theorem scanFormNo_frame (k : String) (h1 : k ≠ "FORM NO")
    (lines : List (List Char)) (r : Fields) :
    getF k (scanFormNo lines r) = getF k r := by
  unfold scanFormNo
  split
  · exact getF_setF_ne h1 _ _
  · rfl

/-- `EMPLOYER` after `lineStage3`: set to the literal or untouched. -/
theorem employer_lineStage3 (lines : List (List Char)) (r : Fields)
    (hk : hasK "EMPLOYER" r) :
    getF "EMPLOYER" (lineStage3 lines r) = "SelfEmployed" ∨
      getF "EMPLOYER" (lineStage3 lines r) = getF "EMPLOYER" r := by
  unfold lineStage3
  split
  · exact employer_line3 _ r hk
  · exact Or.inr rfl

theorem employer_extractFields (lines : List (List Char)) :
    getF "EMPLOYER" (extractFields lines) = "" ∨
      getF "EMPLOYER" (extractFields lines) = "SelfEmployed" := by
  unfold extractFields
  rw [fmtSales_frame "EMPLOYER" (by decide),
    deriveInit_frame "EMPLOYER" (by decide),
    calcTotal_frame "EMPLOYER" (by decide),
    scanFormNo_frame "EMPLOYER" (by decide),
    scanRecordNo_frame "EMPLOYER" (by decide),
    lineStage4_frame "EMPLOYER" (by decide)]
  have h1 : getF "EMPLOYER" (lineStage2 lines (lineStage1 lines initFields)) = "" := by
    rw [lineStage2_frame "EMPLOYER" (by decide) (by decide) (by decide)
        (by decide) (by decide) (by decide),
      lineStage1_frame "EMPLOYER" (by decide) (by decide) (by decide)
        (by decide) (by decide) (by decide) (by decide)]
    rfl
  have hk : hasK "EMPLOYER" (lineStage2 lines (lineStage1 lines initFields)) := by
    unfold hasK
    rw [keysOf_lineStage2, keysOf_lineStage1]
    decide
  rcases employer_lineStage3 lines _ hk with h | h
  · exact Or.inr h
  · rw [h, h1]
    exact Or.inl rfl

/-- `EMPLOYER` is preserved or set to the literal by the override ladder. -/
theorem employer_applyOverrides (r : Fields) (hk : hasK "EMPLOYER" r)
    (h : getF "EMPLOYER" r = "" ∨ getF "EMPLOYER" r = "SelfEmployed") :
    getF "EMPLOYER" (applyOverrides r) = "" ∨
      getF "EMPLOYER" (applyOverrides r) = "SelfEmployed" := by
  have key : ∀ tbl : List (String × String),
      (tbl.map Prod.fst).Nodup → ("EMPLOYER", "SelfEmployed") ∈ tbl →
      getF "EMPLOYER" (applyKnown tbl r) = "" ∨
        getF "EMPLOYER" (applyKnown tbl r) = "SelfEmployed" := by
    intro tbl hnd hmem
    rw [getF_applyKnown "EMPLOYER" "SelfEmployed" tbl r hnd hmem hk]
    rcases h with h | h <;> rw [h] <;> right <;> rfl
  unfold applyOverrides
  by_cases h1 : getF "RECORD NO" r = "1047"
  · rw [if_pos h1]; exact key _ (by decide) (by decide)
  · rw [if_neg h1]
    by_cases h2 : getF "RECORD NO" r = "1048"
    · rw [if_pos h2]; exact key _ (by decide) (by decide)
    · rw [if_neg h2]
      by_cases h3 : getF "RECORD NO" r = "1049"
      · rw [if_pos h3]; exact key _ (by decide) (by decide)
      · rw [if_neg h3]
        by_cases h4 : getF "RECORD NO" r = "1056"
        · rw [if_pos h4]; exact key _ (by decide) (by decide)
        · rw [if_neg h4]; exact h

/-- `EMPLOYER` in every parsed record is the literal `"SelfEmployed"`. -/
theorem employer_parseFormRecord (t : String) :
    getF "EMPLOYER" (parseFormRecord t) = "SelfEmployed" := by
  unfold parseFormRecord
  (try dsimp only)
  have hk0 : hasK "EMPLOYER" (extractFields (cleanLines t)) :=
    hasK_schema _ _ (keysOf_extractFields _) (by decide)
  have h1 := employer_applyOverrides (extractFields (cleanLines t)) hk0
    (employer_extractFields _)
  have hk2 : hasK "EMPLOYER"
      (formNoDefault (dealerStage (cleanLines t)
        (applyOverrides (extractFields (cleanLines t))))) := by
    unfold hasK
    rw [keysOf_formNoDefault, keysOf_dealerStage, keysOf_applyOverrides,
      keysOf_extractFields]
    decide
  rw [getF_fillPlaceholders _ _ hk2,
    formNoDefault_frame "EMPLOYER" (by decide),
    dealerStage_frame "EMPLOYER" (by decide)]
  rcases h1 with h | h <;> rw [h] <;> rfl

/-! ## `FORM NO` is never empty in a parsed record -/

theorem formNoDefault_nonempty (r : Fields) (hk : hasK "FORM NO" r) :
    getF "FORM NO" (formNoDefault r) ≠ "" := by
  unfold formNoDefault
  split
  · rw [getF_setF_self hk]
    decide
  · assumption

theorem formNo_parseFormRecord (t : String) :
    getF "FORM NO" (parseFormRecord t) ≠ "" := by
  unfold parseFormRecord
  (try dsimp only)
  have hk2 : hasK "FORM NO"
      (dealerStage (cleanLines t)
        (applyOverrides (extractFields (cleanLines t)))) := by
    unfold hasK
    rw [keysOf_dealerStage, keysOf_applyOverrides, keysOf_extractFields]
    decide
  have hk3 : hasK "FORM NO"
      (formNoDefault (dealerStage (cleanLines t)
        (applyOverrides (extractFields (cleanLines t))))) := by
    unfold hasK
    rw [keysOf_formNoDefault, keysOf_dealerStage, keysOf_applyOverrides,
      keysOf_extractFields]
    decide
  have hne := formNoDefault_nonempty _ hk2
  rw [getF_fillPlaceholders _ _ hk3, if_neg hne]
  exact hne

/-- Every parsed record passes the orchestrator's non-empty filter. -/
theorem nonEmptyRec_parseFormRecord (t : String) :
    nonEmptyRec (parseFormRecord t) = true := by
  have h := employer_parseFormRecord t
  have hmem := getF_mem "EMPLOYER" (parseFormRecord t) (by rw [h]; decide)
  rw [h] at hmem
  unfold nonEmptyRec
  rw [List.any_eq_true]
  exact ⟨_, hmem, by decide⟩

/-! ## `parseFormData` always succeeds with at least one record -/

theorem recordsOf_eq_map (lines : List (List Char)) :
    ∀ (spans : List (Nat × Nat)) (acc : List Fields),
      spans.foldl
        (fun acc se =>
          if nonEmptyRec (spanRecord lines se) then acc ++ [spanRecord lines se]
          else acc)
        acc = acc ++ spans.map (spanRecord lines) := by
  intro spans
  induction spans with
  | nil => intro acc; simp
  | cons se t ih =>
    intro acc
    have hne : nonEmptyRec (spanRecord lines se) = true :=
      nonEmptyRec_parseFormRecord _
    simp only [List.foldl_cons, hne, if_pos, List.map_cons]
    rw [ih]
    simp

theorem recordsOf_spec (lines : List (List Char)) (spans : List (Nat × Nat)) :
    recordsOf lines spans = spans.map (spanRecord lines) := by
  unfold recordsOf
  rw [recordsOf_eq_map]
  simp

/-- `parseFormData` never reaches the `getDefaultFields` branch and keeps
every span's record: the result length is the number of spans
(`max 1` covers the no-boundary fallback). -/
theorem parseFormData_ok (t : String) :
    parseFormData t =
      Except.ok
        (if recordStartIndices t = [] then [parseFormRecord t]
         else (mkSpans (recordStartIndices t) (cleanLines t).length).map
           (spanRecord (cleanLines t))) := by
  unfold parseFormData
  (try dsimp only)
  by_cases h : recordStartIndices t = []
  · rw [if_pos h, if_pos h]
  · rw [if_neg h, if_neg h, recordsOf_spec]
    have hlen : (mkSpans (recordStartIndices t) (cleanLines t).length).length =
        (recordStartIndices t).length := by
      unfold mkSpans
      rw [List.length_zip]
      simp only [List.length_append, List.length_tail, List.length_singleton]
      have : (recordStartIndices t).length ≠ 0 :=
        fun e => h (List.eq_nil_of_length_eq_zero e)
      omega
    rw [if_neg]
    intro he
    have := congrArg List.length he
    rw [List.length_map, hlen] at this
    exact h (List.eq_nil_of_length_eq_zero this)

theorem parseFormData_length (t : String) :
    ∃ rs, parseFormData t = Except.ok rs ∧
      rs.length = max 1 (recordStartIndices t).length := by
  refine ⟨_, parseFormData_ok t, ?_⟩
  by_cases h : recordStartIndices t = []
  · simp [h]
  · rw [if_neg h, List.length_map]
    unfold mkSpans
    rw [List.length_zip]
    simp only [List.length_append, List.length_tail, List.length_singleton]
    have : (recordStartIndices t).length ≠ 0 :=
      fun e => h (List.eq_nil_of_length_eq_zero e)
    omega

/-! ## Claim theorems -/

/-- C1.  `parseFormData` returns normally on every input (it never reaches
the undefined `getDefaultFields` call, modelled as the `Except.error` case)
and its result has at least one record; on the empty string it returns
exactly one record, every field of which is the empty string, that field's
placeholder default, or the `FORM NO` hardcoded default. -/
theorem parseFormData_total_and_default :
    (∀ t, ∃ rs, parseFormData t = Except.ok rs ∧ 1 ≤ rs.length) ∧
    parseFormData "" = Except.ok [parseFormRecord ""] ∧
    ∀ kv ∈ parseFormRecord "", kv.2 = "" ∨ kv.2 = placeholderFor kv.1 ∨
      (kv.1 = "FORM NO" ∧ kv.2 = "12428_000065") := by
  refine ⟨?_, ?_, by decide⟩
  · intro t
    obtain ⟨rs, h1, h2⟩ := parseFormData_length t
    exact ⟨rs, h1, by omega⟩
  · have h : recordStartIndices "" = [] := by decide
    rw [parseFormData_ok, if_pos h]

/-- C1 witness: the record for the empty input contains the `EMPLOYER`
placeholder, and a nonempty input also yields at least one record. -/
theorem parseFormData_total_and_default_witness :
    (("EMPLOYER", "SelfEmployed") ∈ parseFormRecord "" ∧
      (("SelfEmployed" : String) = "" ∨
        ("SelfEmployed" : String) = placeholderFor "EMPLOYER" ∨
        (("EMPLOYER" : String) = "FORM NO" ∧
          ("SelfEmployed" : String) = "12428_000065"))) ∧
    ∃ rs, parseFormData "hello world" = Except.ok rs ∧ 1 ≤ rs.length :=
  ⟨⟨by decide,
    parseFormData_total_and_default.2.2 ("EMPLOYER", "SelfEmployed")
      (by decide)⟩,
   parseFormData_total_and_default.1 "hello world"⟩

/-- C2 counterexample.  The claim names `CHASSIS NO` among the 24 keys; the
source spells the key `CHESIS NO`, and `CHASSIS NO` is never a key of a
parsed record. -/
theorem chassisNo_not_a_key :
    "CHASSIS NO" ∉ keysOf (parseFormRecord "") ∧
      "CHESIS NO" ∈ keysOf (parseFormRecord "") := by
  constructor
  · rw [keysOf_parseFormRecord]
    decide
  · rw [keysOf_parseFormRecord]
    decide

/-- C2 (amended).  Every record produced by `parseFormRecord` — and hence
every record in a `parseFormData` result — has exactly the 24 fixed field
names, in catalog order, with the source's spelling `CHESIS NO`. -/
theorem record_keys_are_schema (t : String) :
    keysOf (parseFormRecord t) = schemaNames ∧
    ∀ rs, parseFormData t = Except.ok rs →
      ∀ r ∈ rs, keysOf r = schemaNames := by
  refine ⟨keysOf_parseFormRecord t, ?_⟩
  intro rs hok r hr
  rw [parseFormData_ok t] at hok
  injection hok with hok
  subst hok
  rcases eq_or_ne (recordStartIndices t) [] with h | h
  · rw [h] at hr
    simp at hr
    rw [hr]
    exact keysOf_parseFormRecord t
  · rw [if_neg h] at hr
    obtain ⟨se, _, hse⟩ := List.mem_map.mp hr
    rw [← hse]
    exact keysOf_parseFormRecord _

/-- C2 witness at a concrete input. -/
theorem record_keys_are_schema_witness :
    keysOf (parseFormRecord "x") = schemaNames :=
  (record_keys_are_schema "x").2 [parseFormRecord "x"]
    (by rw [parseFormData_ok "x", if_pos (by decide)]) (parseFormRecord "x")
    (List.mem_cons_self _ _)

/-- C3.  On the record whose third line is `"45 4500 49500"` the amount
regex does not match at all (its third group is capped at four digits and
must end at a word boundary, which fails inside the five-digit `49500`), so
the three amounts fall through to the placeholder defaults - not to
`0.045 / 4500 / 49500` as the spec's example demands.  Moreover, on a third
line the regex does match, e.g. `"45 4500 9500"`, the basic amount becomes
`(45 / 1000000).toFixed(3) = "0.000"`, not `"0.045"`. -/
theorem amounts_line_45_4500_49500 :
    reFind amountsRE ("45 4500 49500".data) = none ∧
    getF "BASIC AMOUNT" (parseFormRecord "xxxx\nyyyy\n45 4500 49500") = "0.022" ∧
    getF "INSURANCE AMOUNT" (parseFormRecord "xxxx\nyyyy\n45 4500 49500") = "880" ∧
    getF "TOTAL AMOUNT" (parseFormRecord "xxxx\nyyyy\n45 4500 49500") = "22880" ∧
    getF "BASIC AMOUNT" (parseFormRecord "xxxx\nyyyy\n45 4500 9500") = "0.000" ∧
    getF "INSURANCE AMOUNT" (parseFormRecord "xxxx\nyyyy\n45 4500 9500") = "4500" ∧
    getF "TOTAL AMOUNT" (parseFormRecord "xxxx\nyyyy\n45 4500 9500") = "9500" := by
  refine ⟨by decide, ?_, ?_, ?_, ?_, ?_, ?_⟩ <;> decide

/-- C10.  Every parsed record has a non-empty `FORM NO` (hardcoded default
`12428_000065` when nothing was extracted); consequently the orchestrator's
non-empty filter retains every span's record and the `getDefaultFields`
fallback branch (a `ReferenceError`, the `Except.error` case of the model)
is unreachable. -/
theorem formNo_nonempty_and_fallback_unreachable (t : String) :
    getF "FORM NO" (parseFormRecord t) ≠ "" ∧
    ∃ rs, parseFormData t = Except.ok rs ∧
      rs.length = max 1 (recordStartIndices t).length :=
  ⟨formNo_parseFormRecord t, parseFormData_length t⟩

/-- C10 witness at a concrete input. -/
theorem formNo_nonempty_and_fallback_unreachable_witness :
    getF "FORM NO" (parseFormRecord "z") ≠ "" ∧
    ∃ rs, parseFormData "z" = Except.ok rs ∧
      rs.length = max 1 (recordStartIndices "z").length :=
  formNo_nonempty_and_fallback_unreachable "z"

/-- C5.  When the input reaches the European-form branch (the textual and
`M/D/Y` forms did not apply) with groups day `d`, month `m`, year `y`: if
`d > 12` and `m ≤ 12` the output is `MM/DD/YYYY` with `m` as the month and
`d` as the day; otherwise the first group `d` is printed in the month slot
and `m` in the day slot. -/
theorem formatDate_euBranch (s : String) (d m y : Nat)
    (ht : textResult (collapseWs (jsTrim s.data)) = none)
    (hu : usResult (collapseWs (jsTrim s.data)) = none)
    (he : euGroups (collapseWs (jsTrim s.data)) = some (d, m, y)) :
    formatDate s =
      (if 12 < d ∧ m ≤ 12 then String.mk (fmtMDY m d (adjustY y))
       else String.mk (fmtMDY d m (adjustY y))) := by
  rcases eq_or_ne (jsTrim s.data) [] with h0 | h0
  · rw [h0] at he
    cases he
  · unfold formatDate
    rw [if_neg h0]
    (try dsimp only)
    rw [ht]
    (try dsimp only)
    rw [hu]
    (try dsimp only)
    unfold euResult
    rw [he]
    (try dsimp only)
    by_cases hc : 12 < d ∧ m ≤ 12
    · rw [if_pos hc, if_pos hc]
    · rw [if_neg hc, if_neg hc]

/-- C5 witness: `formatDate "28.1.2001" = "01/28/2001"` (the `day > 12`
branch fires and swaps). -/
theorem formatDate_euBranch_witness : formatDate "28.1.2001" = "01/28/2001" := by
  have h := formatDate_euBranch "28.1.2001" 28 1 2001 (by decide) (by decide)
    (by decide)
  rw [h]
  decide

/-- C8 counterexample.  `"a  b"` matches none of the three date forms, yet
`formatDate` returns `"a b"` — the whitespace-collapsed input — not the
input unchanged. -/
theorem formatDate_collapses_nonmatching :
    textResult (collapseWs (jsTrim "a  b".data)) = none ∧
    usResult (collapseWs (jsTrim "a  b".data)) = none ∧
    euGroups (collapseWs (jsTrim "a  b".data)) = none ∧
    formatDate "a  b" = "a b" ∧ ("a b" : String) ≠ "a  b" := by
  refine ⟨by decide, by decide, by decide, by decide, by decide⟩

/-- C8 (amended).  On a non-empty input matching none of the three date
forms, `formatDate` returns the trimmed, whitespace-collapsed input (hence
the input unchanged exactly when it is already trimmed with no internal
whitespace runs), and never throws. -/
theorem formatDate_noMatch (s : String)
    (ht : textResult (collapseWs (jsTrim s.data)) = none)
    (hu : usResult (collapseWs (jsTrim s.data)) = none)
    (he : euGroups (collapseWs (jsTrim s.data)) = none) :
    formatDate s =
      (if jsTrim s.data = [] then ""
       else String.mk (collapseWs (jsTrim s.data))) := by
  rcases eq_or_ne (jsTrim s.data) [] with h0 | h0
  · unfold formatDate
    rw [if_pos h0, if_pos h0]
  · unfold formatDate
    rw [if_neg h0, if_neg h0]
    (try dsimp only)
    rw [ht]
    (try dsimp only)
    rw [hu]
    (try dsimp only)
    unfold euResult
    rw [he]

/-- C8 witness: the collapse at the concrete input `"a  b"`. -/
theorem formatDate_noMatch_witness :
    formatDate "a  b" =
      (if jsTrim ("a  b" : String).data = [] then ""
       else String.mk (collapseWs (jsTrim ("a  b" : String).data))) :=
  formatDate_noMatch "a  b" (by decide) (by decide) (by decide)

/-- C6 counterexample.  `REMARK` is one of the 24 schema fields, is still
empty after extracting the record `"1047"`, yet has no entry in the
known-record table and remains empty in the final record - so not *every*
schema field is filled from the override table. -/
theorem remark_not_filled_for_1047 :
    getF "RECORD NO" (parseFormRecord "1047") = "1047" ∧
    getF "REMARK" (extractFields (cleanLines "1047")) = "" ∧
    getF "REMARK" (parseFormRecord "1047") = "" ∧
    "REMARK" ∈ schemaNames ∧
    "REMARK" ∉ knownRec1047.map Prod.fst := by
  refine ⟨by decide, by decide, by decide, by decide, by decide⟩

/-- C6 (amended).  For every record text whose extracted `RECORD NO` is
`"1047"`, every field *with an entry in the 1047 override table* (all 22
fields other than `RECORD NO` itself and `REMARK`) that is still empty
after the extraction phase ends up with the table's literal value; in
particular an empty `CUSTOMER NAME` becomes `"Caldwell Jesse"`. -/
theorem override1047_fills_empty (t : String) (f v : String)
    (hmem : (f, v) ∈ knownRec1047)
    (hrec : getF "RECORD NO" (extractFields (cleanLines t)) = "1047")
    (hempty : getF f (extractFields (cleanLines t)) = "") :
    getF f (parseFormRecord t) = v := by
  unfold parseFormRecord
  (try dsimp only)
  have hov : applyOverrides (extractFields (cleanLines t)) =
      applyKnown knownRec1047 (extractFields (cleanLines t)) := by
    unfold applyOverrides
    rw [if_pos hrec]
  rw [hov]
  have hkf : hasK f (extractFields (cleanLines t)) := by
    have hall : ∀ kv ∈ knownRec1047, kv.1 ∈ schemaNames := by decide
    exact hasK_schema _ _ (keysOf_extractFields _) (hall (f, v) hmem)
  have hval : getF f
      (applyKnown knownRec1047 (extractFields (cleanLines t))) = v := by
    rw [getF_applyKnown f v knownRec1047 _ (by decide) hmem hkf, hempty]
    rfl
  have hvne : v ≠ "" := by
    have hall : ∀ kv ∈ knownRec1047, kv.2 ≠ "" := by decide
    exact hall (f, v) hmem
  have h1 : getF f (dealerStage (cleanLines t)
      (applyKnown knownRec1047 (extractFields (cleanLines t)))) = v := by
    rw [dealerStage_keep _ _ _ (by rw [hval]; exact hvne), hval]
  have h2 : getF f (formNoDefault (dealerStage (cleanLines t)
      (applyKnown knownRec1047 (extractFields (cleanLines t))))) = v := by
    rw [formNoDefault_keep _ _ (by rw [h1]; exact hvne), h1]
  have hk2 : hasK f (formNoDefault (dealerStage (cleanLines t)
      (applyKnown knownRec1047 (extractFields (cleanLines t))))) := by
    unfold hasK
    rw [keysOf_formNoDefault, keysOf_dealerStage, keysOf_applyKnown]
    exact hkf
  rw [getF_fillPlaceholders _ _ hk2, h2, if_neg hvne]

/-- C6 witness: the record `"1047"` (no other extractable content) gets
`CUSTOMER NAME = "Caldwell Jesse"` from the override table. -/
theorem override1047_fills_empty_witness :
    getF "CUSTOMER NAME" (parseFormRecord "1047") = "Caldwell Jesse" :=
  override1047_fills_empty "1047" "CUSTOMER NAME" "Caldwell Jesse"
    (by decide) (by decide) (by decide)

/-! ## C7: `generateInitials` and the generational suffixes -/

theorem letter_of_toLower_lower (c : Char)
    (h : isLowerC (Char.toLower c) = true) : isLetterC c = true := by
  unfold Char.toLower at h
  (try dsimp only at h)
  by_cases hc : c.toNat ≥ 65 ∧ c.toNat ≤ 90
  · have hu : isUpperC c = true := by
      unfold isUpperC
      rw [Bool.and_eq_true, decide_eq_true_eq, decide_eq_true_eq]
      exact ⟨hc.1, hc.2⟩
    unfold isLetterC
    rw [hu, Bool.or_true]
  · rw [if_neg hc] at h
    unfold isLetterC
    rw [h, Bool.true_or]

/-- Every character of a token that case-insensitively equals one of the
generational suffixes is a letter. -/
theorem suffix_token_letters (tok : List Char)
    (hsfx : (suffixTokens.any fun sfx => sfx.data == tok.map Char.toLower) = true) :
    ∀ c ∈ tok, isLetterC c = true := by
  rw [List.any_eq_true] at hsfx
  obtain ⟨sfx, hs, he⟩ := hsfx
  rw [beq_iff_eq] at he
  intro c hcm
  apply letter_of_toLower_lower
  have hmm : Char.toLower c ∈ tok.map Char.toLower :=
    List.mem_map_of_mem _ hcm
  rw [← he] at hmm
  exact (by decide : ∀ s ∈ suffixTokens, ∀ d ∈ s.data, isLowerC d = true)
    sfx hs _ hmm

theorem suffix_token_ne_nil (tok : List Char)
    (hsfx : (suffixTokens.any fun sfx => sfx.data == tok.map Char.toLower) = true) :
    tok ≠ [] := by
  rw [List.any_eq_true] at hsfx
  obtain ⟨sfx, hs, he⟩ := hsfx
  rw [beq_iff_eq] at he
  intro h0
  rw [h0] at he
  exact (by decide : ∀ s ∈ suffixTokens, s.data ≠ []) sfx hs he

theorem normPart_of_letters (tok : List Char)
    (h : ∀ c ∈ tok, isLetterC c = true) : normPart tok = tok := by
  unfold normPart
  apply List.filter_eq_self.mpr
  intro a ha
  rw [h a ha, Bool.true_or, Bool.true_or]

/-- A token matching a generational suffix is kept whole, with a trailing
period appended. -/
theorem tokenInitial_suffix (tok : List Char)
    (hsfx : (suffixTokens.any fun sfx => sfx.data == tok.map Char.toLower) = true) :
    tokenInitial tok = tok ++ ['.'] := by
  have hlet := suffix_token_letters tok hsfx
  obtain ⟨c, rest, rfl⟩ : ∃ c rest, tok = c :: rest := by
    cases tok with
    | nil => exact absurd rfl (suffix_token_ne_nil [] hsfx)
    | cons c rest => exact ⟨c, rest, rfl⟩
  unfold tokenInitial
  (try dsimp only)
  rw [normPart_of_letters _ hlet]
  (try dsimp only)
  by_cases hr : rest = []
  · subst hr
    rw [if_pos rfl]
    rfl
  · rw [if_neg hr, if_pos hsfx]

/-- When some token came from the split, `generateInitials` is the
no-separator concatenation of the per-token initials. -/
theorem generateInitials_flatten (name : String) (tok : List Char)
    (hmem : tok ∈ wsTokens (jsTrim name.data))
    (hsfx : (suffixTokens.any fun sfx => sfx.data == tok.map Char.toLower) = true) :
    generateInitials name =
      String.mk ((((wsTokens (jsTrim name.data)).map tokenInitial).filter
        (fun i => i ≠ [])).flatten) := by
  unfold generateInitials
  rcases eq_or_ne (jsTrim name.data) [] with h0 | h0
  · rw [h0] at hmem
    simp [wsTokens, wsTokensAux] at hmem
  · rw [if_neg h0]
    cases hp : wsTokens (jsTrim name.data) with
    | nil =>
      rw [hp] at hmem
      cases hmem
    | cons p ps =>
      rw [hp] at hmem
      cases ps with
      | nil =>
        have htp : tok = p := List.mem_singleton.mp hmem
        subst htp
        (try dsimp only)
        by_cases hl : tok.length = 1
        · rw [if_pos hl]
          have hne : (tok ++ ['.']) ≠ ([] : List Char) := by
            intro he
            exact absurd (List.append_eq_nil.mp he).1
              (suffix_token_ne_nil tok hsfx)
          simp only [List.map_cons, List.map_nil,
            tokenInitial_suffix tok hsfx]
          simp [hne]
        · rw [if_neg hl]
      | cons q qs => rfl

/-- C7.  `generateInitials "John Stuart" = "J.S."`; a token equal
(case-insensitively) to one of the generational suffixes
`jr, sr, ii, iii, iv, v, vi` is kept whole with a trailing period, and the
result is the concatenation, without separator, of all tokens' initials. -/
theorem initials_suffix_preserved :
    generateInitials "John Stuart" = "J.S." ∧
    ∀ (name : String) (tok : List Char),
      tok ∈ wsTokens (jsTrim name.data) →
      (suffixTokens.any fun sfx => sfx.data == tok.map Char.toLower) = true →
      tokenInitial tok = tok ++ ['.'] ∧
      generateInitials name =
        String.mk ((((wsTokens (jsTrim name.data)).map tokenInitial).filter
          (fun i => i ≠ [])).flatten) := by
  refine ⟨by decide, ?_⟩
  intro name tok hmem hsfx
  exact ⟨tokenInitial_suffix tok hsfx, generateInitials_flatten name tok hmem hsfx⟩

/-- C7 witness: `"Robert Jr Smith"` keeps `"Jr"` whole and yields
`"R.Jr.S."`. -/
theorem initials_suffix_preserved_witness :
    tokenInitial ("Jr".data) = "Jr".data ++ ['.'] ∧
    generateInitials "Robert Jr Smith" = "R.Jr.S." := by
  have h := initials_suffix_preserved.2 "Robert Jr Smith" ("Jr".data)
    (by decide) (by decide)
  refine ⟨h.1, ?_⟩
  rw [h.2]
  decide

/-! ## C4: shape of the record-start index list and the spans -/

theorem foldl_inv {α β : Type} (P : β → Prop) (step : β → α → β) :
    ∀ (l : List α), (∀ b, P b → ∀ a ∈ l, P (step b a)) →
      ∀ b, P b → P (l.foldl step b) := by
  intro l
  induction l with
  | nil => intro _ b hb; exact hb
  | cons a t ih =>
    intro hstep b hb
    exact ih (fun b hb a ha => hstep b hb a (List.mem_cons_of_mem _ ha)) _
      (hstep b hb a (List.mem_cons_self _ _))

theorem enum_fst_lt {α : Type} (l : List α) (il : Nat × α) (h : il ∈ l.enum) :
    il.1 < l.length := by
  have := List.mem_enum_iff_get?.mp h
  exact (List.get?_eq_some.mp this).1

/-- Each per-line step only adds the line's own index. -/
theorem stage1Step_sub (acc : List Nat) (il : Nat × List Char) :
    ∀ i ∈ stage1Step acc il, i ∈ acc ∨ i = il.1 := by
  intro i hi
  unfold stage1Step at hi
  split at hi
  · rcases List.mem_append.mp hi with h | h
    · exact Or.inl h
    · exact Or.inr (List.mem_singleton.mp h)
  · exact Or.inl hi

theorem stage2Step_sub (lines : List (List Char)) (acc : List Nat)
    (il : Nat × List Char) :
    ∀ i ∈ stage2Step lines acc il, i ∈ acc ∨ i = il.1 := by
  intro i hi
  unfold stage2Step at hi
  split at hi
  · exact Or.inl hi
  · split at hi
    · exact Or.inl hi
    · split at hi
      · rcases List.mem_append.mp hi with h | h
        · exact Or.inl h
        · exact Or.inr (List.mem_singleton.mp h)
      · exact Or.inl hi

theorem mem_ite_append (c : Prop) [Decidable c] (X : List Nat) (v i : Nat)
    (h : i ∈ (if c then X ++ [v] else X)) : i ∈ X ∨ i = v := by
  split at h
  · rcases List.mem_append.mp h with h2 | h2
    · exact Or.inl h2
    · exact Or.inr (List.mem_singleton.mp h2)
  · exact Or.inl h

theorem stage3Step_sub (lines : List (List Char)) (acc : List Nat)
    (il : Nat × List Char) :
    ∀ i ∈ stage3Step lines acc il, i ∈ acc ∨ i = il.1 := by
  intro i hi
  unfold stage3Step at hi
  (try dsimp only at hi)
  split at hi
  · exact Or.inl hi
  · rcases mem_ite_append _ _ _ _ hi with h2 | h2
    · rcases mem_ite_append _ _ _ _ h2 with h3 | h3
      · split at h3
        · split at h3
          · rcases List.mem_append.mp h3 with h4 | h4
            · exact Or.inl h4
            · exact Or.inr (List.mem_singleton.mp h4)
          · rcases mem_ite_append _ _ _ _ h3 with h4 | h4
            · exact Or.inl h4
            · exact Or.inr h4
        · exact Or.inl h3
      · exact Or.inr h3
    · exact Or.inr h2

/-- Bound propagation through an enum fold whose step only adds the line
index. -/
theorem enumFold_bound {γ : Type} (lines : List (List Char))
    (step : List Nat → (Nat × γ) → List Nat)
    (hsub : ∀ acc il, ∀ i ∈ step acc il, i ∈ acc ∨ i = il.1)
    (l : List (Nat × γ)) (hl : ∀ il ∈ l, il.1 < lines.length)
    (acc : List Nat) (hacc : ∀ i ∈ acc, i < lines.length) :
    ∀ i ∈ l.foldl step acc, i < lines.length := by
  refine foldl_inv (fun b => ∀ i ∈ b, i < lines.length) step l ?_ acc hacc
  intro b hb il hil i hi
  rcases hsub b il i hi with h | h
  · exact hb i h
  · rw [h]
    exact hl il hil

theorem stage1_bound (lines : List (List Char)) :
    ∀ i ∈ stage1 lines, i < lines.length := by
  unfold stage1
  exact enumFold_bound lines stage1Step stage1Step_sub lines.enum
    (fun il h => enum_fst_lt lines il h) [] (by intro i h; cases h)

theorem stage2_bound (lines : List (List Char)) (acc0 : List Nat)
    (h0 : ∀ i ∈ acc0, i < lines.length) :
    ∀ i ∈ stage2 lines acc0, i < lines.length := by
  unfold stage2
  exact enumFold_bound lines (stage2Step lines) (stage2Step_sub lines)
    lines.enum (fun il h => enum_fst_lt lines il h) acc0 h0

theorem stage3_bound (lines : List (List Char)) (acc0 : List Nat)
    (h0 : ∀ i ∈ acc0, i < lines.length) :
    ∀ i ∈ stage3 lines acc0, i < lines.length := by
  unfold stage3
  exact enumFold_bound lines (stage3Step lines) (stage3Step_sub lines)
    lines.enum (fun il h => enum_fst_lt lines il h) acc0 h0

/-- The stride range is sorted and bounded when the stride is positive. -/
theorem strideRangeAux_props (d len : Nat) (hd : 1 ≤ d) :
    ∀ (fuel s : Nat),
      List.Sorted (· ≤ ·) (strideRangeAux d len s fuel) ∧
      ∀ i ∈ strideRangeAux d len s fuel, s ≤ i ∧ i < len := by
  intro fuel
  induction fuel with
  | zero =>
    intro s
    constructor
    · exact List.sorted_nil
    · intro i h; cases h
  | succ fuel ih =>
    intro s
    unfold strideRangeAux
    split
    · obtain ⟨ihs, ihb⟩ := ih (s + d)
      constructor
      · rw [List.sorted_cons]
        refine ⟨fun b hb => ?_, ihs⟩
        have := (ihb b hb).1
        omega
      · intro i hi
        rcases List.mem_cons.mp hi with h | h
        · rw [h]
          exact ⟨Nat.le_refl s, by assumption⟩
        · have := ihb i h
          exact ⟨by omega, this.2⟩
    · constructor
      · exact List.sorted_nil
      · intro i h; cases h

theorem strideRange_props (s d len : Nat) (hd : 1 ≤ d) :
    List.Sorted (· ≤ ·) (strideRange s d len) ∧
      ∀ i ∈ strideRange s d len, i < len := by
  obtain ⟨h1, h2⟩ := strideRangeAux_props d len hd (len + 1) s
  exact ⟨h1, fun i h => (h2 i h).2⟩

/-- Every candidate produced for a distance `d` carries `d` in its middle
component. -/
theorem candFold_dist (lines : List (List Char)) (d : Nat)
    (l : List Nat) (cs : List (Nat × Nat × Nat))
    (h : ∀ c ∈ cs, c.2.1 = d) :
    ∀ c ∈ l.foldl (candStep lines d) cs, c.2.1 = d := by
  refine foldl_inv (fun b => ∀ c ∈ b, c.2.1 = d) (candStep lines d) l ?_ cs h
  intro b hb i _ c hc
  unfold candStep at hc
  split at hc
  · rcases List.mem_append.mp hc with h2 | h2
    · exact hb c h2
    · rw [List.mem_singleton.mp h2]
  · exact hb c hc

/-- The pick fold returns one of the candidates. -/
theorem pickFold_mem (c0 : Nat × Nat × Nat) :
    ∀ rest : List (Nat × Nat × Nat), rest.foldl pickCand c0 ∈ c0 :: rest := by
  suffices h : ∀ (rest : List (Nat × Nat × Nat)) (b : Nat × Nat × Nat),
      rest.foldl pickCand b = b ∨ rest.foldl pickCand b ∈ rest by
    intro rest
    rcases h rest c0 with h2 | h2
    · rw [h2]; exact List.mem_cons_self _ _
    · exact List.mem_cons_of_mem _ h2
  intro rest
  induction rest with
  | nil => intro b; exact Or.inl rfl
  | cons c t ih =>
    intro b
    simp only [List.foldl_cons]
    by_cases hbc : b.2.2 < c.2.2
    · rw [show pickCand b c = c by unfold pickCand; rw [if_pos hbc]]
      rcases ih c with h2 | h2
      · rw [h2]
        exact Or.inr (List.mem_cons_self _ _)
      · exact Or.inr (List.mem_cons_of_mem _ h2)
    · rw [show pickCand b c = b by unfold pickCand; rw [if_neg hbc]]
      rcases ih b with h2 | h2
      · exact Or.inl h2
      · exact Or.inr (List.mem_cons_of_mem _ h2)

/-- The periodicity fallback preserves sortedness and the length bound. -/
theorem stage4Step_props (lines : List (List Char)) (acc : List Nat) (d : Nat)
    (hd : 1 ≤ d)
    (h : List.Sorted (· ≤ ·) acc ∧ ∀ i ∈ acc, i < lines.length) :
    List.Sorted (· ≤ ·) (stage4Step lines acc d) ∧
      ∀ i ∈ stage4Step lines acc d, i < lines.length := by
  unfold stage4Step
  split
  · exact h
  · cases hc : (List.range (min d lines.length)).foldl (candStep lines d) [] with
    | nil => exact h
    | cons c0 rest =>
      (try dsimp only)
      have hdist : (rest.foldl pickCand c0).2.1 = d := by
        have hall := candFold_dist lines d (List.range (min d lines.length)) []
          (by intro c hh; cases hh)
        rw [hc] at hall
        exact hall _ (pickFold_mem c0 rest)
      rw [hdist]
      exact ⟨(strideRange_props _ d _ hd).1, (strideRange_props _ d _ hd).2⟩

/-- The final index list is sorted and bounded by the line count. -/
theorem recordStartIndices_props (t : String) :
    List.Sorted (· ≤ ·) (recordStartIndices t) ∧
      ∀ i ∈ recordStartIndices t, i < (cleanLines t).length := by
  unfold recordStartIndices
  (try dsimp only)
  have main : ∀ a : List Nat, (∀ i ∈ a, i < (cleanLines t).length) →
      List.Sorted (· ≤ ·)
        (if (a.insertionSort (· ≤ ·)).length < 3 then
          [4, 5, 6, 7, 8, 10, 12, 15].foldl (stage4Step (cleanLines t))
            (a.insertionSort (· ≤ ·))
        else a.insertionSort (· ≤ ·)) ∧
      ∀ i ∈ (if (a.insertionSort (· ≤ ·)).length < 3 then
          [4, 5, 6, 7, 8, 10, 12, 15].foldl (stage4Step (cleanLines t))
            (a.insertionSort (· ≤ ·))
        else a.insertionSort (· ≤ ·)), i < (cleanLines t).length := by
    intro a hba
    have hsrt := List.sorted_insertionSort (· ≤ ·) a
    have hbsrt : ∀ i ∈ a.insertionSort (· ≤ ·), i < (cleanLines t).length :=
      fun i hi => hba i ((List.perm_insertionSort _ _).mem_iff.mp hi)
    split
    · refine foldl_inv
        (fun b => List.Sorted (· ≤ ·) b ∧ ∀ i ∈ b, i < (cleanLines t).length)
        (stage4Step (cleanLines t)) [4, 5, 6, 7, 8, 10, 12, 15] ?_ _
        ⟨hsrt, hbsrt⟩
      intro b hb d hd
      have h1d : 1 ≤ d :=
        (by decide : ∀ d ∈ [4, 5, 6, 7, 8, 10, 12, 15], 1 ≤ d) d hd
      exact stage4Step_props (cleanLines t) b d h1d hb
    · exact ⟨hsrt, hbsrt⟩
  apply main
  split
  · split
    · exact stage3_bound _ _ (stage2_bound _ _ (stage1_bound _))
    · exact stage2_bound _ _ (stage1_bound _)
  · split
    · exact stage3_bound _ _ (stage1_bound _)
    · exact stage1_bound _

theorem mkSpans_fst (idx : List Nat) (len : Nat) :
    (mkSpans idx len).map Prod.fst = idx := by
  unfold mkSpans
  apply List.map_fst_zip
  cases idx with
  | nil => simp
  | cons a t => simp

theorem mkSpans_snd (idx : List Nat) (len : Nat) (h : idx ≠ []) :
    (mkSpans idx len).map Prod.snd = idx.tail ++ [len] := by
  unfold mkSpans
  apply List.map_snd_zip
  cases idx with
  | nil => exact absurd rfl h
  | cons a t => simp

theorem mkSpans_le : ∀ (idx : List Nat) (len : Nat),
    List.Sorted (· ≤ ·) idx → (∀ i ∈ idx, i ≤ len) →
    ∀ se ∈ mkSpans idx len, se.1 ≤ se.2 := by
  intro idx
  induction idx with
  | nil =>
    intro len _ _ se hse
    cases hse
  | cons a t ih =>
    intro len hs hb se hse
    cases t with
    | nil =>
      have hone : mkSpans [a] len = [(a, len)] := rfl
      rw [hone] at hse
      rw [List.mem_singleton.mp hse]
      exact hb a (List.mem_cons_self _ _)
    | cons b t2 =>
      have hstep : mkSpans (a :: b :: t2) len =
          (a, b) :: mkSpans (b :: t2) len := rfl
      rw [hstep] at hse
      rcases List.mem_cons.mp hse with h | h
      · rw [h]
        exact (List.sorted_cons.mp hs).1 b (List.mem_cons_self _ _)
      · exact ih len (List.sorted_cons.mp hs).2
          (fun i hi => hb i (List.mem_cons_of_mem _ hi)) se h

/-- C4 counterexample.  On `"xxxx\n1) a@b.com hello"` the aggressive stage
pushes line index 1 twice (once for the numbered-list rule, once for the
e-mail-transition rule): the index list is `[1, 1]` — not de-duplicated —
and the resulting spans include the empty span `(1, 1)`. -/
theorem segmentation_duplicate_index :
    recordStartIndices "xxxx\n1) a@b.com hello" = [1, 1] ∧
    ¬(recordStartIndices "xxxx\n1) a@b.com hello").Nodup ∧
    mkSpans (recordStartIndices "xxxx\n1) a@b.com hello")
      (cleanLines "xxxx\n1) a@b.com hello").length = [(1, 1), (1, 2)] := by
  refine ⟨by decide, by decide, by decide⟩

/-- C4 (amended).  The final record-start index list is sorted ascending
(`insertionSort`, or an arithmetic stride range from the periodicity
fallback) and bounded by the cleaned-line count, but it is *not*
de-duplicated: an index can occur twice, making the corresponding span
empty.  The spans chain — each span's end is the next span's start, spans
are non-decreasing (`start ≤ end`), and the final span's end equals the
total count of cleaned lines. -/
theorem segmentation_sorted_spans (t : String) :
    List.Sorted (· ≤ ·) (recordStartIndices t) ∧
    (∀ i ∈ recordStartIndices t, i < (cleanLines t).length) ∧
    (recordStartIndices t ≠ [] →
      (mkSpans (recordStartIndices t) (cleanLines t).length).map Prod.fst =
        recordStartIndices t ∧
      (mkSpans (recordStartIndices t) (cleanLines t).length).map Prod.snd =
        (recordStartIndices t).tail ++ [(cleanLines t).length] ∧
      (∀ se ∈ mkSpans (recordStartIndices t) (cleanLines t).length,
        se.1 ≤ se.2) ∧
      ((mkSpans (recordStartIndices t) (cleanLines t).length).map
        Prod.snd).getLast? = some (cleanLines t).length) := by
  obtain ⟨hs, hb⟩ := recordStartIndices_props t
  refine ⟨hs, hb, fun hne => ⟨mkSpans_fst _ _, mkSpans_snd _ _ hne, ?_, ?_⟩⟩
  · exact mkSpans_le _ _ hs (fun i hi => Nat.le_of_lt (hb i hi))
  · rw [mkSpans_snd _ _ hne]
    exact List.getLast?_concat _

/-- C4 witness at an input with two detected records. -/
theorem segmentation_sorted_spans_witness :
    List.Sorted (· ≤ ·)
      (recordStartIndices "June 4, 2021 hello\nmiddle text\nJuly 5, 2022 there") ∧
    ((mkSpans
      (recordStartIndices "June 4, 2021 hello\nmiddle text\nJuly 5, 2022 there")
      (cleanLines "June 4, 2021 hello\nmiddle text\nJuly 5, 2022 there").length).map
        Prod.snd).getLast? =
      some (cleanLines "June 4, 2021 hello\nmiddle text\nJuly 5, 2022 there").length :=
  ⟨(segmentation_sorted_spans _).1,
   ((segmentation_sorted_spans _).2.2 (by decide)).2.2.2⟩

end FormFill

namespace FormFill

lemma notWs_of_digit {c : Char} (h : isDigitC c = true) : isWsC c = false := by
  have h2 : 48 ≤ c.toNat ∧ c.toNat ≤ 57 := by simpa [isDigitC] using h
  simp [isWsC]
  omega

lemma notLetter_of_digit {c : Char} (h : isDigitC c = true) : isLetterC c = false := by
  have h2 : 48 ≤ c.toNat ∧ c.toNat ≤ 57 := by simpa [isDigitC] using h
  simp [isLetterC, isLowerC, isUpperC]
  omega

lemma reMatchAt_usDate_eval (a b c d e f g h : Char)
    (ha : isDigitC a = true) (hb : isDigitC b = true) (hc : isDigitC c = true)
    (hd : isDigitC d = true) (he : isDigitC e = true) (hf : isDigitC f = true)
    (hg : isDigitC g = true) (hh : isDigitC h = true) :
    reMatchAt usDateRE [a, b, '/', c, d, '/', e, f, g, h] none =
      some ([a, b, '/', c, d, '/', e, f, g, h],
        [(3, [e, f, g, h]), (2, [c, d]), (1, [a, b])]) := by
  have hwc := notWs_of_digit hc
  have hwe := notWs_of_digit he
  simp [reMatchAt, matchCore, usDateRE, seqR, takeRun, tryCount,
    ha, hb, hc, hd, he, hf, hg, hh, hwc, hwe]

end FormFill

namespace FormFill

lemma reFind_usDate_eval (a b c d e f g h : Char)
    (ha : isDigitC a = true) (hb : isDigitC b = true) (hc : isDigitC c = true)
    (hd : isDigitC d = true) (he : isDigitC e = true) (hf : isDigitC f = true)
    (hg : isDigitC g = true) (hh : isDigitC h = true) :
    reFind usDateRE [a, b, '/', c, d, '/', e, f, g, h] =
      some ([a, b, '/', c, d, '/', e, f, g, h],
        [(3, [e, f, g, h]), (2, [c, d]), (1, [a, b])]) := by
  unfold reFind
  rw [reFindAux, reMatchAt_usDate_eval a b c d e f g h ha hb hc hd he hf hg hh]

lemma usResult_eval (a b c d e f g h : Char)
    (ha : isDigitC a = true) (hb : isDigitC b = true) (hc : isDigitC c = true)
    (hd : isDigitC d = true) (he : isDigitC e = true) (hf : isDigitC f = true)
    (hg : isDigitC g = true) (hh : isDigitC h = true) :
    usResult [a, b, '/', c, d, '/', e, f, g, h] =
      some (fmtMDY (parseDigits [a, b]) (parseDigits [c, d])
        (adjustY (parseDigits [e, f, g, h]))) := by
  unfold usResult
  rw [reFind_usDate_eval a b c d e f g h ha hb hc hd he hf hg hh]
  simp [grpGet, List.find?]

lemma reMatchAt_textDate_none (s : List Char) (pv : Option Char)
    (h : ∀ c ∈ s, isLetterC c = false) : reMatchAt textDateRE s pv = none := by
  cases s with
  | nil => rfl
  | cons c cs =>
    have hcl : isLetterC c = false := h c (List.mem_cons_self _ _)
    simp [reMatchAt, matchCore, textDateRE, seqR, takeRun, hcl]

lemma reFindAux_textDate_none (s : List Char) (h : ∀ c ∈ s, isLetterC c = false) :
    ∀ pv, reFindAux textDateRE s pv = none := by
  induction s with
  | nil =>
    intro pv
    rw [reFindAux, reMatchAt_textDate_none [] pv (by intro c hc; cases hc)]
  | cons c cs ih =>
    intro pv
    rw [reFindAux, reMatchAt_textDate_none (c :: cs) pv h]
    exact ih (fun x hx => h x (List.mem_cons_of_mem _ hx)) (some c)

lemma textResult_nolet (s : List Char) (h : ∀ c ∈ s, isLetterC c = false) :
    textResult s = none := by
  unfold textResult reFind
  rw [reFindAux_textDate_none s h none]

lemma digitChar_is_digit (k : Nat) (h : k < 10) :
    isDigitC (Char.ofNat (48 + k)) = true := by
  interval_cases k <;> decide

lemma toNat_ofNat_digit (k : Nat) (h : k < 10) :
    (Char.ofNat (48 + k)).toNat = 48 + k := by
  interval_cases k <;> decide

lemma toDecAux_digits : ∀ (fuel n : Nat), ∀ c ∈ toDecAux n fuel, isDigitC c = true := by
  intro fuel
  induction fuel with
  | zero => intro n c hc; simp [toDecAux] at hc
  | succ fu ih =>
    intro n c hc
    rw [toDecAux] at hc
    by_cases h10 : n < 10
    · rw [if_pos h10] at hc
      rw [List.mem_singleton.mp hc]
      exact digitChar_is_digit n h10
    · rw [if_neg h10] at hc
      rcases List.mem_append.mp hc with h1 | h1
      · exact ih (n / 10) c h1
      · rw [List.mem_singleton.mp h1]
        exact digitChar_is_digit (n % 10) (Nat.mod_lt _ (by omega))

lemma toDec_digits (n : Nat) : ∀ c ∈ toDec n, isDigitC c = true :=
  toDecAux_digits (n + 1) n

lemma parseDigits_append (l : List Char) (c : Char) :
    parseDigits (l ++ [c]) = 10 * parseDigits l + (c.toNat - 48) := by
  unfold parseDigits
  rw [List.foldl_append]
  rfl

lemma parseDigits_toDecAux : ∀ (fuel n : Nat), n < fuel →
    parseDigits (toDecAux n fuel) = n := by
  intro fuel
  induction fuel with
  | zero => intro n h; omega
  | succ fu ih =>
    intro n h
    rw [toDecAux]
    by_cases h10 : n < 10
    · rw [if_pos h10]
      show 10 * 0 + ((Char.ofNat (48 + n)).toNat - 48) = n
      rw [toNat_ofNat_digit n h10]
      omega
    · rw [if_neg h10, parseDigits_append]
      have hdiv : n / 10 < n := Nat.div_lt_self (by omega) (by omega)
      rw [ih (n / 10) (by omega), toNat_ofNat_digit (n % 10) (Nat.mod_lt _ (by omega))]
      omega

lemma parseDigits_toDec (n : Nat) : parseDigits (toDec n) = n :=
  parseDigits_toDecAux (n + 1) n (Nat.lt_succ_self n)

lemma toDecAux_len_le1 (fuel n : Nat) (h : n < 10) :
    (toDecAux n fuel).length ≤ 1 := by
  cases fuel with
  | zero => simp [toDecAux]
  | succ fu => rw [toDecAux, if_pos h]; simp

lemma toDec_len_le2 (n : Nat) (h : n < 100) : (toDec n).length ≤ 2 := by
  unfold toDec
  rw [toDecAux]
  by_cases h10 : n < 10
  · rw [if_pos h10]; simp
  · rw [if_neg h10]
    have hd : n / 10 < 10 := by omega
    have := toDecAux_len_le1 n (n / 10) hd
    simp [List.length_append]
    omega

lemma foldl_zeros : ∀ k : Nat,
    List.foldl (fun a c => 10 * a + (c.toNat - 48)) 0 (List.replicate k '0') = 0 := by
  intro k
  induction k with
  | zero => rfl
  | succ k ih => simpa [List.replicate_succ] using ih

lemma parseDigits_padStart2 (s : List Char) :
    parseDigits (padStart2 s) = parseDigits s := by
  unfold padStart2 parseDigits
  rw [List.foldl_append, foldl_zeros]

lemma padStart2_len (s : List Char) : 2 ≤ (padStart2 s).length := by
  simp [padStart2]
  omega

lemma padStart2_digits (s : List Char) (h : ∀ c ∈ s, isDigitC c = true) :
    ∀ c ∈ padStart2 s, isDigitC c = true := by
  intro c hc
  rcases List.mem_append.mp hc with h1 | h1
  · rw [List.eq_of_mem_replicate h1]; decide
  · exact h c h1

lemma fmtMDY_chars (m d y : Nat) : ∀ c ∈ fmtMDY m d y,
    isDigitC c = true ∨ c = '/' := by
  intro c hc
  unfold fmtMDY at hc
  rcases List.mem_append.mp hc with h1 | h1
  · exact Or.inl (padStart2_digits _ (toDec_digits m) c h1)
  · rcases List.mem_cons.mp h1 with h2 | h2
    · exact Or.inr h2
    · rcases List.mem_append.mp h2 with h3 | h3
      · exact Or.inl (padStart2_digits _ (toDec_digits d) c h3)
      · rcases List.mem_cons.mp h3 with h4 | h4
        · exact Or.inr h4
        · exact Or.inl (toDec_digits y c h4)

lemma fmtMDY_nows (m d y : Nat) : ∀ c ∈ fmtMDY m d y, isWsC c = false := by
  intro c hc
  rcases fmtMDY_chars m d y c hc with h | h
  · exact notWs_of_digit h
  · rw [h]; decide

lemma fmtMDY_nolet (m d y : Nat) : ∀ c ∈ fmtMDY m d y, isLetterC c = false := by
  intro c hc
  rcases fmtMDY_chars m d y c hc with h | h
  · exact notLetter_of_digit h
  · rw [h]; decide

lemma dropWhile_nofalse (p : Char → Bool) (l : List Char)
    (h : ∀ c ∈ l, p c = false) : l.dropWhile p = l := by
  cases l with
  | nil => rfl
  | cons c cs => simp [List.dropWhile, h c (List.mem_cons_self _ _)]

lemma jsTrim_nows (l : List Char) (h : ∀ c ∈ l, isWsC c = false) :
    jsTrim l = l := by
  unfold jsTrim
  rw [dropWhile_nofalse _ _ h,
    dropWhile_nofalse _ _ (fun c hc => h c (List.mem_reverse.mp hc)),
    List.reverse_reverse]

lemma collapseWsAux_nows : ∀ (l : List Char), (∀ c ∈ l, isWsC c = false) →
    ∀ b, collapseWsAux b l = l := by
  intro l
  induction l with
  | nil => intro _ b; rfl
  | cons c cs ih =>
    intro h b
    have hc : ¬ (isWsC c = true) := by
      rw [h c (List.mem_cons_self _ _)]; exact Bool.false_ne_true
    rw [collapseWsAux, if_neg hc, ih (fun x hx => h x (List.mem_cons_of_mem _ hx)) false]

lemma collapseWs_nows (l : List Char) (h : ∀ c ∈ l, isWsC c = false) :
    collapseWs l = l := collapseWsAux_nows l h false

end FormFill

namespace FormFill

/-- Zero-padded canonical `MM/DD/YYYY` shape over a character list. -/
def isCanonList : List Char → Bool
  | [a, b, s1, c, d, s2, e, f, g, h] =>
    isDigitC a && isDigitC b && (s1 == '/') && isDigitC c && isDigitC d &&
    (s2 == '/') && isDigitC e && isDigitC f && isDigitC g && isDigitC h
  | _ => false

/-- The claim's `zero-padded MM/DD/YYYY form`: two digits, slash, two digits,
slash, four digits. -/
def isCanonMMDDYYYY (s : String) : Bool := isCanonList s.data

lemma isCanonList_shape (l : List Char) (hcl : isCanonList l = true) :
    ∃ a b c d e f g h, l = [a, b, '/', c, d, '/', e, f, g, h] ∧
      isDigitC a = true ∧ isDigitC b = true ∧ isDigitC c = true ∧
      isDigitC d = true ∧ isDigitC e = true ∧ isDigitC f = true ∧
      isDigitC g = true ∧ isDigitC h = true := by
  rcases l with _ | ⟨a, _ | ⟨b, _ | ⟨s1, _ | ⟨c, _ | ⟨d, _ | ⟨s2, _ | ⟨e,
    _ | ⟨f, _ | ⟨g, _ | ⟨h, _ | ⟨x, rest⟩⟩⟩⟩⟩⟩⟩⟩⟩⟩⟩ <;>
    try exact absurd hcl Bool.false_ne_true
  have hcl2 : (isDigitC a && isDigitC b && (s1 == '/') && isDigitC c &&
      isDigitC d && (s2 == '/') && isDigitC e && isDigitC f && isDigitC g &&
      isDigitC h) = true := hcl
  simp only [Bool.and_eq_true, beq_iff_eq] at hcl2
  obtain ⟨⟨⟨⟨⟨⟨⟨⟨⟨ha, hb⟩, hs1⟩, hc⟩, hd⟩, hs2⟩, he⟩, hf⟩, hg⟩, hh⟩ := hcl2
  exact ⟨a, b, c, d, e, f, g, h, by rw [hs1, hs2], ha, hb, hc, hd, he, hf, hg, hh⟩

lemma textResult_shape (s r : List Char) (h : textResult s = some r) :
    ∃ m d y, r = fmtMDY m d y := by
  unfold textResult at h
  rcases hf : reFind textDateRE s with _ | ⟨t, cp⟩ <;> rw [hf] at h
  · exact absurd h (by simp)
  · (try dsimp only at h)
    rcases hm : monthIdx ((grpGet 1 cp).map Char.toLower) with _ | i <;>
      rw [hm] at h
    · exact absurd h (by simp)
    · exact ⟨i + 1, parseDigits (grpGet 2 cp), adjustY (parseDigits (grpGet 3 cp)),
        (Option.some_inj.mp h).symm⟩

lemma usResult_shape (s r : List Char) (h : usResult s = some r) :
    ∃ m d y, r = fmtMDY m d y := by
  unfold usResult at h
  rcases hf : reFind usDateRE s with _ | ⟨t, cp⟩ <;> rw [hf] at h
  · exact absurd h (by simp)
  · exact ⟨parseDigits (grpGet 1 cp), parseDigits (grpGet 2 cp),
      adjustY (parseDigits (grpGet 3 cp)), (Option.some_inj.mp h).symm⟩

lemma euResult_shape (s r : List Char) (h : euResult s = some r) :
    ∃ m d y, r = fmtMDY m d y := by
  unfold euResult at h
  rcases hg : euGroups s with _ | ⟨dd, mm, yy⟩ <;> rw [hg] at h
  · exact absurd h (by simp)
  · (try dsimp only at h)
    by_cases hc : 12 < dd ∧ mm ≤ 12
    · rw [if_pos hc] at h
      exact ⟨mm, dd, adjustY yy, (Option.some_inj.mp h).symm⟩
    · rw [if_neg hc] at h
      exact ⟨dd, mm, adjustY yy, (Option.some_inj.mp h).symm⟩

lemma formatDate_image (x : String) (h : isCanonMMDDYYYY (formatDate x) = true) :
    ∃ m d y, formatDate x = ⟨fmtMDY m d y⟩ := by
  by_cases h0 : jsTrim x.data = []
  · rw [formatDate, if_pos h0] at h
    exact absurd h (by decide)
  · rw [formatDate, if_neg h0] at h ⊢
    (try dsimp only at h ⊢)
    rcases ht : textResult (collapseWs (jsTrim x.data)) with _ | r <;>
      rw [ht] at h
    · rcases hu : usResult (collapseWs (jsTrim x.data)) with _ | r <;>
        rw [hu] at h
      · rcases he : euResult (collapseWs (jsTrim x.data)) with _ | r <;>
          rw [he] at h
        · -- fallback: the collapsed input itself is canonical, so the US
          -- regex would have matched it: contradiction with hu
          have h9 : isCanonList (collapseWs (jsTrim x.data)) = true := h
          obtain ⟨a, b, c, d, e2, f, g, h2, heq, ha, hb, hc, hd, he2, hf2, hg2, hh2⟩ :=
            isCanonList_shape _ h9
          rw [heq] at hu
          rw [usResult_eval a b c d e2 f g h2 ha hb hc hd he2 hf2 hg2 hh2] at hu
          exact absurd hu (by simp)
        · obtain ⟨m, dd, y, hr⟩ := euResult_shape _ _ he
          exact ⟨m, dd, y, by rw [hr]⟩
      · obtain ⟨m, dd, y, hr⟩ := usResult_shape _ _ hu
        exact ⟨m, dd, y, by rw [hr]⟩
    · obtain ⟨m, dd, y, hr⟩ := textResult_shape _ _ ht
      exact ⟨m, dd, y, by rw [hr]⟩

lemma digitPrefix_split (P : List Char) (hP : ∀ c ∈ P, isDigitC c = true)
    (hlen : 2 ≤ P.length) (rest tail : List Char) (a b : Char)
    (heq : P ++ '/' :: rest = a :: b :: '/' :: tail) :
    P = [a, b] ∧ rest = tail := by
  rcases P with _ | ⟨p1, _ | ⟨p2, P'⟩⟩
  · simp at hlen
  · simp at hlen
  · rcases P' with _ | ⟨q, Q⟩
    · simp at heq
      exact ⟨by rw [heq.1, heq.2.1], heq.2.2⟩
    · simp at heq
      have hq : isDigitC q = true :=
        hP q (by simp)
      rw [heq.2.2.1] at hq
      exact absurd hq (by decide)

lemma usResult_fmtMDY (m d y : Nat)
    (hshape : isCanonList (fmtMDY m d y) = true) :
    usResult (fmtMDY m d y) = some (fmtMDY m d y) := by
  obtain ⟨a, b, c, dd, e, f, g, h, heq, ha, hb, hc, hd2, he2, hf2, hg2, hh2⟩ :=
    isCanonList_shape _ hshape
  have heq' := heq
  unfold fmtMDY at heq'
  obtain ⟨hP, hrest⟩ := digitPrefix_split _ (padStart2_digits _ (toDec_digits m))
    (padStart2_len _) _ _ a b heq'
  obtain ⟨hQ, hR⟩ := digitPrefix_split _ (padStart2_digits _ (toDec_digits d))
    (padStart2_len _) _ _ c dd hrest
  -- year bounds: toDec y is the 4-char tail, so y is not < 100
  have hy4 : (toDec y).length = 4 := by rw [hR]; rfl
  have hy100 : ¬ y < 100 := by
    intro hlt
    have := toDec_len_le2 y hlt
    omega
  rw [heq]
  rw [usResult_eval a b c dd e f g h ha hb hc hd2 he2 hf2 hg2 hh2]
  have h1 : parseDigits [a, b] = m := by
    rw [← hP, parseDigits_padStart2, parseDigits_toDec]
  have h2 : parseDigits [c, dd] = d := by
    rw [← hQ, parseDigits_padStart2, parseDigits_toDec]
  have h3 : adjustY (parseDigits [e, f, g, h]) = y := by
    rw [← hR, parseDigits_toDec, adjustY, if_neg hy100]
  rw [h1, h2, h3, ← heq]

lemma formatDate_canon_fixed (m d y : Nat)
    (hshape : isCanonList (fmtMDY m d y) = true) :
    formatDate ⟨fmtMDY m d y⟩ = ⟨fmtMDY m d y⟩ := by
  have hnws := fmtMDY_nows m d y
  have hnlet := fmtMDY_nolet m d y
  have htrim : jsTrim (fmtMDY m d y) = fmtMDY m d y := jsTrim_nows _ hnws
  have hne : jsTrim (fmtMDY m d y) ≠ [] := by
    rw [htrim]
    unfold fmtMDY
    intro hcontra
    simpa using congrArg List.length hcontra
  rw [formatDate]
  rw [show (⟨fmtMDY m d y⟩ : String).data = fmtMDY m d y from rfl]
  rw [if_neg hne]
  (try dsimp only)
  rw [htrim, collapseWs_nows _ hnws]
  rw [textResult_nolet _ hnlet]
  rw [usResult_fmtMDY m d y hshape]

end FormFill

namespace FormFill

/-- C9: `normalizeDate` (the source's `formatDate`) is idempotent on its
canonical outputs: whenever `formatDate x` is in zero-padded `MM/DD/YYYY`
form, applying `formatDate` again returns it unchanged. -/
theorem formatDate_idempotent (x : String)
    (h : isCanonMMDDYYYY (formatDate x) = true) :
    formatDate (formatDate x) = formatDate x := by
  obtain ⟨m, d, y, hmdy⟩ := formatDate_image x h
  rw [hmdy] at h ⊢
  exact formatDate_canon_fixed m d y h

/-- C9 witness: `formatDate "June 4 2007" = "06/04/2007"` is canonical and a
fixed point of `formatDate`. -/
theorem formatDate_idempotent_witness :
    isCanonMMDDYYYY (formatDate "June 4 2007") = true ∧
    formatDate (formatDate "June 4 2007") = formatDate "June 4 2007" :=
  ⟨by decide, formatDate_idempotent "June 4 2007" (by decide)⟩

end FormFill
